import Mathlib

/-!
Bastion: dispatch service, entity store and remote runner.

A shallow embedding of `cmd/internal/core` (models, in-memory repositories,
`BastionService`, the relational command and execution repositories) and of
the daemon's `handleExec` / `runScript`, followed by the properties proved
about them.

Conventions of the embedding:

* a Go `string` is a Lean `String`, a Go `int` / `int64` is an `Int`
  (no arithmetic in the embedded code can overflow);
* a Go `error` is an `Option String` holding the text of `err.Error()`,
  `none` being `nil`;
* a Go `map[string]V` is an association list with the update-in-place /
  append semantics of `m[k] = v`;
* everything the code obtains from the outside world (clock, random source,
  JSON codec, HTTP transport, spawned process) is read from an explicit
  environment record, so that every function is a pure, executable function
  of its inputs.
-/

namespace Bastion

/-! ## Go runtime primitives -/

/-- An instant of Go's `time.Time`, in nanoseconds on a linear time line; `0` is the zero value. -/
abbrev Time := Int

/-- A Go `map[string]V`: the bindings currently held, at most one per key in every
state reachable through `GoMap.set` from the empty map. -/
abbrev GoMap (V : Type) := List (String × V)

namespace GoMap

variable {V : Type}

/-- The lookup `v, ok := m[k]`: `some v` when `ok`, `none` otherwise. -/
def get : GoMap V → String → Option V
  | [], _ => none
  | (k', v) :: rest, k => if k' = k then some v else get rest k

/-- The assignment `m[k] = v`: replaces the binding of `k` when there is one, adds it otherwise. -/
def set : GoMap V → String → V → GoMap V
  | [], k, v => [(k, v)]
  | (k', v') :: rest, k, v => if k' = k then (k, v) :: rest else (k', v') :: set rest k v

/-- The values met by `for _, v := range m`, in one of the orders Go may choose. -/
def values (m : GoMap V) : List V := m.map Prod.snd

end GoMap

/-- Go's `unicode.IsSpace`: the Latin-1 white space characters and the
`White_Space` code points above Latin-1. -/
def isSpace (c : Char) : Bool :=
  let n := c.toNat
  if n ≤ 0xFF then
    n = 0x09 || n = 0x0A || n = 0x0B || n = 0x0C || n = 0x0D || n = 0x20 || n = 0x85 || n = 0xA0
  else
    n = 0x1680 || (0x2000 ≤ n && n ≤ 0x200A) || n = 0x2028 || n = 0x2029 || n = 0x202F
      || n = 0x205F || n = 0x3000

/-- Go's `strings.TrimSpace`: the string without its leading and trailing white space. -/
def TrimSpace (s : String) : String :=
  String.mk ((s.data.dropWhile isSpace).reverse.dropWhile isSpace).reverse

/-- Go's `strings.TrimRight(s, cutset)`: the string without its trailing characters that occur in `cutset`. -/
def TrimRight (s cutset : String) : String :=
  String.mk (s.data.reverse.dropWhile (fun c => cutset.data.contains c)).reverse

/-- One lower-case hexadecimal digit, as `encoding/hex` writes it. -/
def hexDigit (n : Nat) : Char :=
  "0123456789abcdef".data.getD (n % 16) '0'

/-- Go's `hex.EncodeToString` on a byte slice (each byte taken modulo 256). -/
def hexEncodeToString (b : List Nat) : String :=
  String.mk (b.flatMap (fun x => [hexDigit (x % 256 / 16), hexDigit (x % 256 % 16)]))

/-- Go's `Time.After`: whether the instant `t` is after `u`. -/
def Time.After (t u : Time) : Bool := decide (u < t)

/-- Go's `sort.Slice(list, less)`: the elements of `list` rearranged so that no element is
followed by one that `less` puts before it. Go leaves the order of elements that `less` does
not separate open; this model keeps them in their original order. -/
def sortSlice {α : Type} (less : α → α → Bool) (list : List α) : List α :=
  list.insertionSort (fun a b => ¬ less b a = true)

/-- The value an `int64` holds after Go computes the integer `n` in it: `n` itself when it is
in range, and otherwise `n` wrapped around modulo `2^64` (two's complement). -/
def wrapInt64 (n : Int) : Int :=
  (n + 9223372036854775808) % 18446744073709551616 - 9223372036854775808

/-- Go's `time.Second`, as a `time.Duration`: the nanoseconds of one second. -/
def Second : Int := 1000000000

/-! ## models.go -/

structure Command where
  ID : String
  Name : String
  Description : String
  Script : String
  TimeoutSeconds : Int
  CreatedAt : Time
deriving DecidableEq, Repr

structure Node where
  ID : String
  Name : String
  Address : String
deriving DecidableEq, Repr

/-- The Go type `ExecutionStatus string`. -/
abbrev ExecutionStatus := String

def ExecutionPending : ExecutionStatus := "pending"
def ExecutionRunning : ExecutionStatus := "running"
def ExecutionSucceeded : ExecutionStatus := "succeeded"
def ExecutionFailed : ExecutionStatus := "failed"

structure Execution where
  ID : String
  CommandID : String
  NodeID : String
  Status : ExecutionStatus
  StartedAt : Time
  CompletedAt : Option Time
  Stdout : String
  Stderr : String
  ExitCode : Int
  DurationMs : Int
deriving DecidableEq, Repr

structure ExecRequest where
  Script : String
  TimeoutSeconds : Int
  WorkingDir : String
deriving DecidableEq, Repr

structure ExecResponse where
  Stdout : String
  Stderr : String
  ExitCode : Int
  DurationMs : Int
deriving DecidableEq, Repr

/-- The zero value `Command{}`. -/
def Command.zero : Command :=
  { ID := "", Name := "", Description := "", Script := "", TimeoutSeconds := 0, CreatedAt := 0 }

/-- The zero value `Execution{}`. -/
def Execution.zero : Execution :=
  { ID := "", CommandID := "", NodeID := "", Status := "", StartedAt := 0, CompletedAt := none,
    Stdout := "", Stderr := "", ExitCode := 0, DurationMs := 0 }

/-! ## repo.go: the in-memory repositories -/

structure InMemoryCommandRepo where
  data : GoMap Command
deriving DecidableEq, Repr

def NewInMemoryCommandRepo : InMemoryCommandRepo := { data := [] }

def InMemoryCommandRepo.List (r : InMemoryCommandRepo) : List Command := r.data.values

def InMemoryCommandRepo.Get (r : InMemoryCommandRepo) (id : String) : Option Command :=
  r.data.get id

def InMemoryCommandRepo.Save (r : InMemoryCommandRepo) (command : Command) :
    Command × InMemoryCommandRepo :=
  (command, { data := r.data.set command.ID command })

structure InMemoryNodeRepo where
  data : GoMap Node
deriving DecidableEq, Repr

def NewInMemoryNodeRepo : InMemoryNodeRepo := { data := [] }

def InMemoryNodeRepo.List (r : InMemoryNodeRepo) : List Node := r.data.values

def InMemoryNodeRepo.Get (r : InMemoryNodeRepo) (id : String) : Option Node :=
  r.data.get id

def InMemoryNodeRepo.Save (r : InMemoryNodeRepo) (node : Node) : Node × InMemoryNodeRepo :=
  (node, { data := r.data.set node.ID node })

structure InMemoryExecutionRepo where
  data : GoMap Execution
deriving DecidableEq, Repr

def NewInMemoryExecutionRepo : InMemoryExecutionRepo := { data := [] }

def InMemoryExecutionRepo.List (r : InMemoryExecutionRepo) : List Execution := r.data.values

def InMemoryExecutionRepo.Get (r : InMemoryExecutionRepo) (id : String) : Option Execution :=
  r.data.get id

def InMemoryExecutionRepo.Save (r : InMemoryExecutionRepo) (execution : Execution) :
    Execution × InMemoryExecutionRepo :=
  (execution, { data := r.data.set execution.ID execution })

/-! ## service.go: the dispatch service -/

/-- An outgoing `*http.Request`, reduced to what `ExecuteCommand` puts into it. -/
structure HTTPRequest where
  Method : String
  URL : String
  Body : String
  Header : List (String × String)
deriving DecidableEq, Repr

/-- An incoming `*http.Response`: its status code and the bytes of its body. -/
structure HTTPResponse where
  StatusCode : Int
  Body : String
deriving DecidableEq, Repr

/-- What the dispatch service reads from the outside world during one call. -/
structure Env where
  /-- The reading of `time.Now().UTC()` taken when the call starts its work. -/
  now : Time
  /-- The outcome of `rand.Read(b)` on the six-byte buffer: the bytes, or the error text. -/
  randRead : Except String (List Nat)
  /-- The reading of `time.Now().UnixNano()` used when the random source fails. -/
  unixNano : Int
  /-- The codec call `json.Marshal(req)`. -/
  marshal : ExecRequest → Except String String
  /-- The error, if any, of `http.NewRequestWithContext(ctx, method, url, body)`. -/
  newRequest : String → String → Option String
  /-- The transport call `s.client.Do(httpReq)`, cancellation of `ctx` included. -/
  doRequest : HTTPRequest → Except String HTTPResponse
  /-- The codec call `json.NewDecoder(resp.Body).Decode(&execResp)`. -/
  decode : String → Except String ExecResponse
  /-- The reading of `time.Now().UTC()` taken when the call records its terminal state. -/
  finished : Time

structure BastionService where
  commands : InMemoryCommandRepo
  nodes : InMemoryNodeRepo
  executions : InMemoryExecutionRepo
deriving DecidableEq, Repr

def NewBastionService (commands : InMemoryCommandRepo) (nodes : InMemoryNodeRepo)
    (executions : InMemoryExecutionRepo) : BastionService :=
  { commands := commands, nodes := nodes, executions := executions }

def randomID (env : Env) (pfx : String) : String :=
  match env.randRead with
  | .error _ => pfx ++ "-" ++ toString env.unixNano
  | .ok b => pfx ++ "-" ++ hexEncodeToString b

/-- The result of `CreateCommand`: the two Go return values and the service afterwards. -/
structure CreateResult where
  command : Command
  err : Option String
  service : BastionService
deriving DecidableEq, Repr

def CreateCommand (env : Env) (s : BastionService) (input : Command) : CreateResult :=
  if TrimSpace input.Name = "" then
    { command := Command.zero, err := some "name is required", service := s }
  else if TrimSpace input.Script = "" then
    { command := Command.zero, err := some "script is required", service := s }
  else
    let input := if input.TimeoutSeconds ≤ 0 then { input with TimeoutSeconds := 300 } else input
    let input := { input with ID := randomID env "cmd" }
    let input := { input with CreatedAt := env.now }
    let saved := s.commands.Save input
    { command := saved.1, err := none, service := { s with commands := saved.2 } }

/-- The service together with the record of every `s.executions.Save` made so far in the
current call, oldest first. -/
abbrev Saving := BastionService × List Execution

/-- The call `s.executions.Save(e)`, also entered into the record of writes. -/
def saveExecution (st : Saving) (e : Execution) : Saving :=
  ({ st.1 with executions := (st.1.executions.Save e).2 }, st.2 ++ [e])

def failExecution (env : Env) (st : Saving) (execRecord : Execution) (message : String) :
    Execution × Saving :=
  let now := env.finished
  let execRecord := { execRecord with CompletedAt := some now }
  let execRecord := { execRecord with Status := ExecutionFailed }
  let execRecord := { execRecord with Stderr := message }
  let execRecord := { execRecord with ExitCode := 1 }
  (execRecord, saveExecution st execRecord)

/-- The result of `ExecuteCommand`: the two Go return values, the service afterwards, and a
record of the call's effects: the executions written, the run request built, and the HTTP
request handed to the transport. -/
structure ExecuteResult where
  execution : Execution
  err : Option String
  service : BastionService
  saved : List Execution
  request : Option ExecRequest
  sent : Option HTTPRequest
deriving DecidableEq, Repr

def ExecuteCommand (env : Env) (s : BastionService) (commandID nodeID : String) :
    ExecuteResult :=
  match s.commands.Get commandID with
  | none =>
    { execution := Execution.zero, err := some ("unknown command " ++ commandID),
      service := s, saved := [], request := none, sent := none }
  | some cmd =>
  match s.nodes.Get nodeID with
  | none =>
    { execution := Execution.zero, err := some ("unknown node " ++ nodeID),
      service := s, saved := [], request := none, sent := none }
  | some node =>
  let now := env.now
  let execRecord : Execution :=
    { ID := randomID env "exec", CommandID := cmd.ID, NodeID := node.ID,
      Status := ExecutionRunning, StartedAt := now, CompletedAt := none,
      Stdout := "", Stderr := "", ExitCode := 0, DurationMs := 0 }
  let st := saveExecution (s, []) execRecord
  let req : ExecRequest :=
    { Script := cmd.Script, TimeoutSeconds := cmd.TimeoutSeconds, WorkingDir := "" }
  match env.marshal req with
  | .error err =>
    let failed := failExecution env st execRecord ("marshal request: " ++ err)
    { execution := failed.1, err := some err, service := failed.2.1, saved := failed.2.2,
      request := some req, sent := none }
  | .ok payload =>
  let url := TrimRight node.Address "/" ++ "/api/v1/exec"
  match env.newRequest "POST" url with
  | some err =>
    let failed := failExecution env st execRecord ("build request: " ++ err)
    { execution := failed.1, err := some err, service := failed.2.1, saved := failed.2.2,
      request := some req, sent := none }
  | none =>
  let httpReq : HTTPRequest :=
    { Method := "POST", URL := url, Body := payload,
      Header := [("Content-Type", "application/json")] }
  match env.doRequest httpReq with
  | .error err =>
    let failed := failExecution env st execRecord ("request failed: " ++ err)
    { execution := failed.1, err := some err, service := failed.2.1, saved := failed.2.2,
      request := some req, sent := some httpReq }
  | .ok resp =>
  match env.decode resp.Body with
  | .error err =>
    let failed := failExecution env st execRecord ("decode response: " ++ err)
    { execution := failed.1, err := some err, service := failed.2.1, saved := failed.2.2,
      request := some req, sent := some httpReq }
  | .ok execResp =>
  let finished := env.finished
  let execRecord := { execRecord with Stdout := execResp.Stdout }
  let execRecord := { execRecord with Stderr := execResp.Stderr }
  let execRecord := { execRecord with ExitCode := execResp.ExitCode }
  let execRecord := { execRecord with DurationMs := execResp.DurationMs }
  let execRecord := { execRecord with CompletedAt := some finished }
  let execRecord :=
    if execResp.ExitCode = 0 then { execRecord with Status := ExecutionSucceeded }
    else { execRecord with Status := ExecutionFailed }
  let st := saveExecution st execRecord
  { execution := execRecord, err := none, service := st.1, saved := st.2,
    request := some req, sent := some httpReq }

def ListExecutions (s : BastionService) : List Execution :=
  let list := s.executions.List
  sortSlice (fun a b => Time.After a.StartedAt b.StartedAt) list

/-- The method `DeleteCommand` of service.go. It calls `s.commands.Delete(id)`, a method that
repo.go declares neither in the interface `CommandRepository` nor on `InMemoryCommandRepo`;
whatever stands for that call is the parameter `delete`. -/
def DeleteCommand (delete : InMemoryCommandRepo → String → InMemoryCommandRepo)
    (s : BastionService) (id : String) : Option String × BastionService :=
  if TrimSpace id = "" then
    (some "id is required", s)
  else
    match s.commands.Get id with
    | none => (some ("unknown command " ++ id), s)
    | some _ => (none, { s with commands := delete s.commands id })

/-! ## repo_pg.go: the relational repositories -/

/-- What a foreign key has PostgreSQL do with the rows that reference a row being deleted
(`ON DELETE ...`); `noAction` is what a constraint without the clause gets. -/
inductive ReferentialAction where
  | noAction
  | restrict
  | cascade
  | setNull
  | setDefault
deriving DecidableEq, Repr

/-- A `FOREIGN KEY (column) REFERENCES table(id) ON DELETE onDelete` constraint of the table
`executions`. -/
structure ForeignKey where
  name : String
  column : String
  table : String
  onDelete : ReferentialAction
deriving DecidableEq, Repr

/-- The foreign keys that the `CREATE TABLE IF NOT EXISTS executions` statement of
`ensureSchema` declares. -/
def ensureSchema.foreignKeys : List ForeignKey :=
  [ { name := "fk_command", column := "command_id", table := "commands",
      onDelete := ReferentialAction.cascade },
    { name := "fk_node", column := "node_id", table := "nodes",
      onDelete := ReferentialAction.cascade } ]

/-- A row of the table `commands`; `description` is the one column that may be `NULL`. -/
structure CommandRow where
  id : String
  name : String
  description : Option String
  script : String
  timeout_seconds : Int
  created_at : Time
deriving DecidableEq, Repr

/-- A row of the table `nodes`. -/
structure NodeRow where
  id : String
  name : String
  address : String
deriving DecidableEq, Repr

/-- A row of the table `executions`; `completed_at`, `stdout` and `stderr` are the columns
that may be `NULL`. -/
structure ExecutionRow where
  id : String
  command_id : String
  node_id : String
  status : String
  started_at : Time
  completed_at : Option Time
  stdout : Option String
  stderr : Option String
  exit_code : Int
  duration_ms : Int
deriving DecidableEq, Repr

/-- The value a row of `executions` has in one of its key columns. -/
def ExecutionRow.key (row : ExecutionRow) (column : String) : Option String :=
  if column = "id" then some row.id
  else if column = "command_id" then some row.command_id
  else if column = "node_id" then some row.node_id
  else none

/-- The rows of the three tables that `ensureSchema` creates. -/
structure Database where
  commands : List CommandRow
  nodes : List NodeRow
  executions : List ExecutionRow
deriving DecidableEq, Repr

/-- The statement `DELETE FROM commands WHERE id=$1` as PostgreSQL carries it out. When no row
of `commands` has the identifier nothing is deleted. Otherwise the row goes, and the foreign
key of `executions` into `commands` decides about the executions that reference it: with
`ON DELETE CASCADE` they are deleted too; with any other action the statement fails when
there is such an execution (`command_id` is `NOT NULL` and has no default, so it can be set
neither to `NULL` nor to a default) and deletes the command alone when there is none. -/
def Database.deleteCommand (db : Database) (id : String) : Except String Database :=
  if db.commands.all (fun c => decide (c.id ≠ id)) then
    .ok db
  else
    let commands := db.commands.filter (fun c => decide (c.id ≠ id))
    match ensureSchema.foreignKeys.find? (fun fk => decide (fk.table = "commands")) with
    | none => .ok { db with commands := commands }
    | some fk =>
      match fk.onDelete with
      | .cascade =>
        .ok { db with
              commands := commands,
              executions := db.executions.filter (fun e => decide (e.key fk.column ≠ some id)) }
      | _ =>
        if db.executions.any (fun e => decide (e.key fk.column = some id)) then
          .error ("delete on table commands violates foreign key constraint " ++ fk.name)
        else
          .ok { db with commands := commands }

/-- What `Scan` makes of a row of `commands` in `PostgresCommandRepo.Get`: a `NULL`
description is read through `sql.NullString` as the empty string. -/
def scanCommand (row : CommandRow) : Command :=
  { ID := row.id, Name := row.name, Description := row.description.getD "",
    Script := row.script, TimeoutSeconds := row.timeout_seconds, CreatedAt := row.created_at }

/-- The method `PostgresCommandRepo.Get`: the row of `SELECT ... FROM commands WHERE id=$1`.
`ok` tells whether the query reaches the database and is answered; when it is not, or when
there is no such row, `Scan` returns an error and the command is reported absent. -/
def PostgresCommandRepo.Get (ok : Bool) (db : Database) (id : String) : Option Command :=
  if ok then (db.commands.find? (fun c => decide (c.id = id))).map scanCommand else none

/-- The method `PostgresCommandRepo.Delete`: `DELETE FROM commands WHERE id=$1`, the error of
the statement being discarded. `ok` tells whether the statement reaches the database. -/
def PostgresCommandRepo.Delete (ok : Bool) (db : Database) (id : String) : Database :=
  if ok then
    match db.deleteCommand id with
    | .ok after => after
    | .error _ => db
  else
    db

/-- The function `scanExecution`: `Scan` fails on a row whose `stdout` or `stderr` is `NULL`,
which cannot be read into a Go `string`; a `NULL` `completed_at` is read through
`sql.NullTime` as no completion timestamp. -/
def scanExecution (row : ExecutionRow) : Option Execution :=
  match row.stdout, row.stderr with
  | some stdout, some stderr =>
    some { ID := row.id, CommandID := row.command_id, NodeID := row.node_id,
           Status := row.status, StartedAt := row.started_at, CompletedAt := row.completed_at,
           Stdout := stdout, Stderr := stderr, ExitCode := row.exit_code,
           DurationMs := row.duration_ms }
  | _, _ => none

/-- The method `PostgresExecutionRepo.List`: the rows of `SELECT ... FROM executions ORDER BY
started_at DESC` (rows with the same `started_at` in the order of the table), those on which
`scanExecution` fails being skipped. `ok` tells whether the query reaches the database and
is answered; when it is not, the list is empty. -/
def PostgresExecutionRepo.List (ok : Bool) (db : Database) : List Execution :=
  if ok then
    (db.executions.insertionSort (fun a b => b.started_at ≤ a.started_at)).filterMap
      scanExecution
  else
    []

/-- The row that the `INSERT` of `PostgresCommandRepo.Save` writes for `command`. -/
def CommandRow.ofCommand (command : Command) : CommandRow :=
  { id := command.ID, name := command.Name, description := some command.Description,
    script := command.Script, timeout_seconds := command.TimeoutSeconds,
    created_at := command.CreatedAt }

/-- The row that the `INSERT` of `PostgresExecutionRepo.Save` writes for `execution`: a nil
`CompletedAt` travels as `NULL`. -/
def ExecutionRow.ofExecution (execution : Execution) : ExecutionRow :=
  { id := execution.ID, command_id := execution.CommandID, node_id := execution.NodeID,
    status := execution.Status, started_at := execution.StartedAt,
    completed_at := execution.CompletedAt, stdout := some execution.Stdout,
    stderr := some execution.Stderr, exit_code := execution.ExitCode,
    duration_ms := execution.DurationMs }

/-! ## daemon/main.go: the remote runner -/

/-- The state of a process that was started and waited for (`os.ProcessState`): it exited
with a code, or a signal terminated it. -/
inductive ProcessState where
  | exited (code : Int)
  | signaled (signal : String)
deriving DecidableEq, Repr

/-- Go's `ProcessState.ExitCode`: the exit code of the exited process, or `-1` when the
process was terminated by a signal. -/
def ProcessState.ExitCode : ProcessState → Int
  | .exited code => code
  | .signaled _ => -1

/-- A non-nil error of `cmd.Run()`: an `*exec.ExitError` carrying the process state, or any
other error (the process was not started, or its output could not be copied). -/
inductive RunError where
  | exitError (state : ProcessState)
  | other (msg : String)
deriving DecidableEq, Repr

/-- The text of `err.Error()`. -/
def RunError.Error : RunError → String
  | .exitError (.exited code) => "exit status " ++ toString code
  | .exitError (.signaled signal) => "signal: " ++ signal
  | .other msg => msg

/-- What `cmd.Run()` leaves behind: the two captured buffers and its error. -/
structure ProcessOutcome where
  stdout : String
  stderr : String
  err : Option RunError
deriving DecidableEq, Repr

/-- The part of a `context.Context` the runner uses: its timeout, if it has one, as a Go
`time.Duration`, that is a number of nanoseconds; a timeout that is not positive is a
deadline already passed. -/
abbrev Context := Option Int

/-- The operating system as `runScript` sees it: running `argv` in directory `dir` under `ctx`. -/
abbrev Spawner := Context → List String → String → ProcessOutcome

/-- The result of `runScript`: its four Go return values and the processes it asked the
operating system to run (arguments and working directory), oldest first. -/
structure RunResult where
  stdout : String
  stderr : String
  exitCode : Int
  err : Option String
  spawned : List (List String × String)
deriving DecidableEq, Repr

def runScript (run : Spawner) (ctx : Context) (script workdir : String) : RunResult :=
  if TrimSpace script = "" then
    { stdout := "", stderr := "empty script", exitCode := 1, err := some "empty script",
      spawned := [] }
  else
    let argv := ["bash", "-lc", script]
    let dir := if workdir ≠ "" then workdir else ""
    let out := run ctx argv dir
    match out.err with
    | none =>
      { stdout := out.stdout, stderr := out.stderr, exitCode := 0, err := none,
        spawned := [(argv, dir)] }
    | some err =>
      let exitCode :=
        match err with
        | .exitError state => state.ExitCode
        | .other _ => 1
      let stderr := if out.stderr.utf8ByteSize = 0 then out.stderr ++ err.Error else out.stderr
      { stdout := out.stdout, stderr := stderr, exitCode := exitCode, err := some err.Error,
        spawned := [(argv, dir)] }

/-- What the daemon reads from the outside world while it serves one request. -/
structure DaemonEnv where
  /-- The codec call `json.NewDecoder(r.Body).Decode(&req)`. -/
  decodeRequest : String → Except String ExecRequest
  /-- The operating system running a process. -/
  run : Spawner
  /-- The reading of `time.Since(start).Milliseconds()`. -/
  elapsedMs : Int

/-- The result of `handleExec`: the status code and body written to the response writer
(`response` when the body is the JSON encoding of an `ExecResponse`, `text` otherwise), the
timeout put on the context of the script (a `time.Duration`, in nanoseconds), and the
processes run. -/
structure ExecHandlerResult where
  StatusCode : Int
  text : String
  response : Option ExecResponse
  timeout : Option Int
  spawned : List (List String × String)
deriving DecidableEq, Repr

def handleExec (env : DaemonEnv) (method body : String) : ExecHandlerResult :=
  if method ≠ "POST" then
    { StatusCode := 405, text := "", response := none, timeout := none, spawned := [] }
  else
    match env.decodeRequest body with
    | .error _ =>
      { StatusCode := 400, text := "invalid payload\n", response := none, timeout := none,
        spawned := [] }
    | .ok req =>
      let timeout := req.TimeoutSeconds
      let timeout := if timeout ≤ 0 then 300 else timeout
      let ctx : Context :=
        if timeout > 0 then some (wrapInt64 (wrapInt64 timeout * Second)) else none
      let ran := runScript env.run ctx req.Script req.WorkingDir
      let resp : ExecResponse :=
        { Stdout := ran.stdout, Stderr := ran.stderr, ExitCode := ran.exitCode,
          DurationMs := env.elapsedMs }
      { StatusCode := 200, text := "", response := some resp, timeout := ctx,
        spawned := ran.spawned }

/-! ## Specification vocabulary -/

/-- A string is blank: it is empty or holds white space only. -/
def Blank (s : String) : Prop := ∀ c ∈ s.data, isSpace c = true

instance (s : String) : Decidable (Blank s) := by unfold Blank; infer_instance

/-- The stages of a dispatch that can fail. -/
inductive Stage where
  | marshal
  | build
  | send
  | decode
deriving DecidableEq, Repr

/-- The words with which the stderr of a failed execution names the stage. -/
def Stage.label : Stage → String
  | .marshal => "marshal request: "
  | .build => "build request: "
  | .send => "request failed: "
  | .decode => "decode response: "

/-- The run request for a command, as the service builds it. -/
def requestFor (cmd : Command) : ExecRequest :=
  { Script := cmd.Script, TimeoutSeconds := cmd.TimeoutSeconds, WorkingDir := "" }

/-- The HTTP request that carries `payload` to `node`. -/
def httpRequestFor (node : Node) (payload : String) : HTTPRequest :=
  { Method := "POST", URL := TrimRight node.Address "/" ++ "/api/v1/exec", Body := payload,
    Header := [("Content-Type", "application/json")] }

/-- The HTTP response, if the world `env` lets the dispatch of `cmd` to `node` get as far as
one; otherwise the stage that fails and its error. -/
def exchange (env : Env) (cmd : Command) (node : Node) : Except (Stage × String) HTTPResponse :=
  match env.marshal (requestFor cmd) with
  | .error e => .error (Stage.marshal, e)
  | .ok payload =>
    match env.newRequest "POST" (httpRequestFor node payload).URL with
    | some e => .error (Stage.build, e)
    | none =>
      match env.doRequest (httpRequestFor node payload) with
      | .error e => .error (Stage.send, e)
      | .ok resp => .ok resp

/-- The runner's answer, if the world `env` lets the dispatch of `cmd` to `node` go through
all its stages; otherwise the stage that fails and its error. -/
def roundTrip (env : Env) (cmd : Command) (node : Node) : Except (Stage × String) ExecResponse :=
  match exchange env cmd node with
  | .error e => .error e
  | .ok resp =>
    match env.decode resp.Body with
    | .error e => .error (Stage.decode, e)
    | .ok r => .ok r

/-- The record with which a dispatch of `cmd` to `node` starts: status `running`, no
completion timestamp, no output yet. -/
def runningRecord (env : Env) (cmd : Command) (node : Node) : Execution :=
  { ID := randomID env "exec", CommandID := cmd.ID, NodeID := node.ID,
    Status := ExecutionRunning, StartedAt := env.now, CompletedAt := none,
    Stdout := "", Stderr := "", ExitCode := 0, DurationMs := 0 }

/-- The terminal record of a dispatch that failed with `message`. -/
def failedRecord (env : Env) (cmd : Command) (node : Node) (message : String) : Execution :=
  { runningRecord env cmd node with
    CompletedAt := some env.finished, Status := ExecutionFailed, Stderr := message,
    ExitCode := 1 }

/-- The terminal record of a dispatch that the runner answered with `r`. -/
def completedRecord (env : Env) (cmd : Command) (node : Node) (r : ExecResponse) : Execution :=
  { runningRecord env cmd node with
    Stdout := r.Stdout, Stderr := r.Stderr, ExitCode := r.ExitCode, DurationMs := r.DurationMs,
    CompletedAt := some env.finished,
    Status := if r.ExitCode = 0 then ExecutionSucceeded else ExecutionFailed }

/-- The service after the execution store received the writes `first` and then `second`. -/
def afterWrites (s : BastionService) (first second : Execution) : BastionService :=
  { s with executions := ((s.executions.Save first).2.Save second).2 }

/-- The invariant of a repository's map: one binding per key, each stored under the
identifier of its value. `NewInMemory*Repo` satisfies it and `Save` keeps it. -/
def Keyed {V : Type} (id : V → String) (m : GoMap V) : Prop :=
  (m.map Prod.fst).Nodup ∧ ∀ p ∈ m, p.1 = id p.2

/-- The upsert contract of a repository `r` for two entities `e1`, `e2`, saved in that
order: afterwards the list holds exactly one entity with the identifier of `e2`, namely
`e2`; `get` of that identifier returns `e2`; `get` of any other identifier returns what it
returned before; the entities with another identifier in the list are those that were there
before; saving returns the entity saved; and saving `e1` once more right after saving it
changes nothing. -/
def UpsertLaw {R T : Type} (list : R → List T) (get : R → String → Option T)
    (save : R → T → T × R) (id : T → String) (r : R) (e1 e2 : T) : Prop :=
  (list (save (save r e1).2 e2).2).filter (fun e => decide (id e = id e2)) = [e2] ∧
  get (save (save r e1).2 e2).2 (id e2) = some e2 ∧
  (∀ k, k ≠ id e2 → get (save (save r e1).2 e2).2 k = get r k) ∧
  ((list (save (save r e1).2 e2).2).filter (fun e => decide (id e ≠ id e2))).Perm
    ((list r).filter (fun e => decide (id e ≠ id e2))) ∧
  (save (save r e1).2 e2).1 = e2 ∧
  (save (save r e1).2 e1).2 = (save r e1).2

/-! ## Sample data -/

/-- A world in which the random source yields `01 02 03 04 05 06`, the codec writes `payload`,
the request is built, and the transport answers with `status` and a body that decodes as `r`. -/
def answeringEnv (status : Int) (r : ExecResponse) : Env :=
  { now := 1000, randRead := .ok [1, 2, 3, 4, 5, 6], unixNano := 1000,
    marshal := fun _ => .ok "payload", newRequest := fun _ _ => none,
    doRequest := fun _ => .ok { StatusCode := status, Body := "body" },
    decode := fun _ => .ok r, finished := 2000 }

/-- A world in which the node cannot be reached: the transport fails. -/
def unreachableEnv : Env :=
  { now := 1000, randRead := .ok [1, 2, 3, 4, 5, 6], unixNano := 1000,
    marshal := fun _ => .ok "payload", newRequest := fun _ _ => none,
    doRequest := fun _ => .error "connection refused",
    decode := fun _ => .error "EOF", finished := 2000 }

/-- A runner answer for a script that exited with code 0. -/
def okResponse : ExecResponse :=
  { Stdout := "ok", Stderr := "", ExitCode := 0, DurationMs := 5 }

/-- A runner answer for a script that exited with code 2. -/
def exitTwoResponse : ExecResponse :=
  { Stdout := "", Stderr := "boom", ExitCode := 2, DurationMs := 7 }

/-- A world like `answeringEnv 200 okResponse`, except that the random source yields six zero
bytes, those of the identifier of `earlierExecution`. -/
def collidingEnv : Env :=
  { answeringEnv 200 okResponse with randRead := .ok [0, 0, 0, 0, 0, 0] }

/-- A command input without a name. -/
def namelessInput : Command :=
  { ID := "", Name := " \t", Description := "", Script := "ls", TimeoutSeconds := 10,
    CreatedAt := 0 }

/-- A command input that leaves the timeout unset. -/
def untimedInput : Command :=
  { ID := "", Name := "Check GPU", Description := "", Script := "nvidia-smi",
    TimeoutSeconds := 0, CreatedAt := 0 }

/-- An operating system on which every script prints `done` and exits with code 0. -/
def obligingSpawner : Spawner :=
  fun _ _ _ => { stdout := "done", stderr := "", err := none }

/-- A command as `CreateCommand` stores it. -/
def sampleCommand : Command :=
  { ID := "cmd-1", Name := "Docker ps", Description := "List running containers",
    Script := "docker ps", TimeoutSeconds := 60, CreatedAt := 500 }

/-- A command saved through the repository with no timeout set. -/
def untimedCommand : Command :=
  { ID := "cmd-0", Name := "Uptime", Description := "", Script := "uptime",
    TimeoutSeconds := 0, CreatedAt := 500 }

/-- The node registered at start-up. -/
def localNode : Node :=
  { ID := "node-local", Name := "Local Daemon", Address := "http://localhost:9090/" }

/-- An execution recorded by an earlier dispatch. -/
def earlierExecution : Execution :=
  { ID := "exec-000000000000", CommandID := "cmd-1", NodeID := "node-local",
    Status := ExecutionSucceeded, StartedAt := 100, CompletedAt := some 200,
    Stdout := "ok", Stderr := "", ExitCode := 0, DurationMs := 100 }

/-- A service holding the sample commands, the local node and one earlier execution. -/
def sampleService : BastionService :=
  NewBastionService
    ((NewInMemoryCommandRepo.Save sampleCommand).2.Save untimedCommand).2
    (NewInMemoryNodeRepo.Save localNode).2
    (NewInMemoryExecutionRepo.Save earlierExecution).2

/-- A run request whose timeout in seconds is one more than a `time.Duration` can hold. -/
def overlongRequest : ExecRequest :=
  { Script := "ls", TimeoutSeconds := 9223372037, WorkingDir := "" }

/-- A daemon whose codec decodes every request body as `req`, on an operating system that
runs anything. -/
def receivingDaemon (req : ExecRequest) : DaemonEnv :=
  { decodeRequest := fun _ => .ok req, run := obligingSpawner, elapsedMs := 3 }

/-- An operating system on which every script is killed by a signal before it prints
anything, as when the deadline of the context passes. -/
def killingSpawner : Spawner :=
  fun _ _ _ => { stdout := "", stderr := "", err := some (.exitError (.signaled "killed")) }

/-- An operating system on which no process can be started. -/
def barrenSpawner : Spawner :=
  fun _ _ _ =>
    { stdout := "", stderr := "",
      err := some (.other "fork/exec /usr/bin/bash: no such file or directory") }

/-- An execution of the untimed sample command, recorded later than `earlierExecution`. -/
def laterExecution : Execution :=
  { ID := "exec-000000000001", CommandID := "cmd-0", NodeID := "node-local",
    Status := ExecutionFailed, StartedAt := 300, CompletedAt := some 400,
    Stdout := "", Stderr := "boom", ExitCode := 2, DurationMs := 100 }

/-- A command that no execution references. -/
def idleCommand : Command :=
  { ID := "cmd-2", Name := "Disk usage", Description := "", Script := "df -h",
    TimeoutSeconds := 30, CreatedAt := 600 }

/-- A database holding three commands, the local node and three executions: one of
`sampleCommand`, one of `untimedCommand`, and one of `untimedCommand` whose output columns
are `NULL`; no execution references `idleCommand`. -/
def sampleDatabase : Database :=
  { commands := [CommandRow.ofCommand sampleCommand, CommandRow.ofCommand untimedCommand,
      CommandRow.ofCommand idleCommand],
    nodes := [{ id := "node-local", name := "Local Daemon",
                address := "http://localhost:9090/" }],
    executions := [ExecutionRow.ofExecution earlierExecution,
      ExecutionRow.ofExecution laterExecution,
      { ExecutionRow.ofExecution laterExecution with
        id := "exec-000000000002", started_at := 350, stdout := none, stderr := none }] }

/-! ## Lemmas on the runtime primitives -/

theorem GoMap.get_set_self {V : Type} (m : GoMap V) (k : String) (v : V) :
    (m.set k v).get k = some v := by
  induction m with
  | nil => simp [GoMap.set, GoMap.get]
  | cons p rest ih =>
    obtain ⟨k', v'⟩ := p
    by_cases h : k' = k
    · simp [GoMap.set, GoMap.get, h]
    · simp [GoMap.set, GoMap.get, h, ih]

theorem GoMap.get_set_ne {V : Type} (m : GoMap V) (k k' : String) (v : V) (hne : k' ≠ k) :
    (m.set k v).get k' = m.get k' := by
  induction m with
  | nil => simp [GoMap.set, GoMap.get, Ne.symm hne]
  | cons p rest ih =>
    obtain ⟨k0, v0⟩ := p
    by_cases h : k0 = k
    · subst h
      simp [GoMap.set, GoMap.get, Ne.symm hne]
    · by_cases h' : k0 = k'
      · subst h'
        simp [GoMap.set, GoMap.get, h]
      · simp [GoMap.set, GoMap.get, h, h', ih]

theorem GoMap.set_set {V : Type} (m : GoMap V) (k : String) (v w : V) :
    (m.set k v).set k w = m.set k w := by
  induction m with
  | nil => simp [GoMap.set]
  | cons p rest ih =>
    obtain ⟨k0, v0⟩ := p
    by_cases h : k0 = k
    · simp [GoMap.set, h]
    · simp [GoMap.set, h, ih]

theorem TrimSpace_eq_empty_iff (s : String) : TrimSpace s = "" ↔ Blank s := by
  unfold TrimSpace Blank
  have hmk : ∀ l : List Char, String.mk l = "" ↔ l = [] := by
    intro l
    constructor
    · intro h
      have := congrArg String.data h
      simpa using this
    · rintro rfl
      rfl
  rw [hmk, List.reverse_eq_nil_iff, List.dropWhile_eq_nil_iff]
  constructor
  · intro h
    have hnil : s.data.dropWhile isSpace = [] := by
      cases hd : s.data.dropWhile isSpace with
      | nil => rfl
      | cons c rest =>
        have h1 : isSpace c = true := h c (by simp [hd])
        have h2 := List.head_dropWhile_not isSpace s.data (by simp [hd])
        simp [hd, h1] at h2
    exact List.dropWhile_eq_nil_iff.mp hnil
  · intro h
    have hnil : s.data.dropWhile isSpace = [] := List.dropWhile_eq_nil_iff.mpr h
    simp [hnil]

theorem append_ne_empty_of_left (a b : String) (h : a ≠ "") : a ++ b ≠ "" := by
  intro hab
  apply h
  have := congrArg String.data hab
  simp at this
  exact String.ext this.1

theorem wrapInt64_of_range (n : Int) (hlo : -9223372036854775808 ≤ n)
    (hhi : n ≤ 9223372036854775807) : wrapInt64 n = n := by
  unfold wrapInt64
  omega

theorem hexDigit_inj (a b : Nat) (ha : a < 16) (hb : b < 16) (h : hexDigit a = hexDigit b) :
    a = b := by
  have key : ∀ x y : Fin 16, hexDigit x.val = hexDigit y.val → x = y := by decide
  exact congrArg Fin.val (key ⟨a, ha⟩ ⟨b, hb⟩ h)

theorem hexEncodeToString_inj (b b' : List Nat) (hb : ∀ x ∈ b, x < 256)
    (hb' : ∀ x ∈ b', x < 256) (h : hexEncodeToString b = hexEncodeToString b') : b = b' := by
  have hdata := congrArg String.data h
  simp only [hexEncodeToString] at hdata
  clear h
  induction b generalizing b' with
  | nil =>
    cases b' with
    | nil => rfl
    | cons y ys => simp at hdata
  | cons x xs ih =>
    cases b' with
    | nil => simp at hdata
    | cons y ys =>
      simp only [List.flatMap_cons, List.cons_append, List.nil_append, List.cons.injEq] at hdata
      obtain ⟨h1, h2, hrest⟩ := hdata
      have hx : x < 256 := hb x (List.mem_cons_self _ _)
      have hy : y < 256 := hb' y (List.mem_cons_self _ _)
      have e1 := hexDigit_inj _ _ (by omega) (by omega) h1
      have e2 := hexDigit_inj _ _ (by omega) (by omega) h2
      have hxy : x = y := by omega
      have htail := ih ys (fun z hz => hb z (List.mem_cons_of_mem _ hz))
        (fun z hz => hb' z (List.mem_cons_of_mem _ hz)) hrest
      rw [hxy, htail]

theorem randomID_inj (env env' : Env) (pfx : String) (b b' : List Nat)
    (hr : env.randRead = .ok b) (hr' : env'.randRead = .ok b')
    (hb : ∀ x ∈ b, x < 256) (hb' : ∀ x ∈ b', x < 256)
    (h : randomID env pfx = randomID env' pfx) : b = b' := by
  simp only [randomID, hr, hr'] at h
  apply hexEncodeToString_inj b b' hb hb'
  have hdata := congrArg String.data h
  simp only [String.data_append, List.append_cancel_left_eq] at hdata
  exact String.ext hdata

theorem utf8ByteSize_eq_zero_iff (s : String) : s.utf8ByteSize = 0 ↔ s = "" := by
  constructor
  · intro h
    obtain ⟨l⟩ := s
    cases l with
    | nil => rfl
    | cons c cs =>
      have hpos := Char.utf8Size_pos c
      simp only [String.utf8ByteSize, String.utf8ByteSize.go] at h
      omega
  · rintro rfl
    rfl

theorem Keyed_nil {V : Type} (id : V → String) : Keyed id ([] : GoMap V) := by
  simp [Keyed]

theorem Keyed_tail {V : Type} (id : V → String) (p : String × V) (rest : GoMap V)
    (h : Keyed id (p :: rest)) : Keyed id rest := by
  obtain ⟨hnd, hk⟩ := h
  refine ⟨?_, fun q hq => hk q (List.mem_cons_of_mem _ hq)⟩
  simp only [List.map_cons, List.nodup_cons] at hnd
  exact hnd.2

theorem GoMap.keys_set {V : Type} (m : GoMap V) (k : String) (v : V) (k' : String)
    (h : k' ∈ (m.set k v).map Prod.fst) : k' = k ∨ k' ∈ m.map Prod.fst := by
  induction m with
  | nil =>
    simp only [GoMap.set, List.map_cons, List.map_nil, List.mem_singleton] at h
    exact Or.inl h
  | cons p rest ih =>
    obtain ⟨k0, v0⟩ := p
    by_cases hk : k0 = k
    · simp only [GoMap.set, hk, if_true, List.map_cons, List.mem_cons] at h
      rcases h with h | h
      · exact Or.inl h
      · exact Or.inr (by simp [h])
    · simp only [GoMap.set, hk, if_false, List.map_cons, List.mem_cons] at h
      rcases h with h | h
      · exact Or.inr (by simp [h])
      · rcases ih h with h | h
        · exact Or.inl h
        · exact Or.inr (by simp [h])

theorem Keyed_set {V : Type} (id : V → String) (m : GoMap V) (v : V) (h : Keyed id m) :
    Keyed id (m.set (id v) v) := by
  induction m with
  | nil => simp [Keyed, GoMap.set]
  | cons p rest ih =>
    obtain ⟨k0, v0⟩ := p
    have htail := Keyed_tail id _ _ h
    obtain ⟨hnd, hk⟩ := h
    simp only [List.map_cons, List.nodup_cons] at hnd
    by_cases hk0 : k0 = id v
    · subst hk0
      refine ⟨?_, ?_⟩
      · simpa [GoMap.set] using hnd
      · intro q hq
        simp only [GoMap.set, if_true, List.mem_cons] at hq
        rcases hq with rfl | hq
        · rfl
        · exact hk q (List.mem_cons_of_mem _ hq)
    · obtain ⟨ihnd, ihk⟩ := ih htail
      refine ⟨?_, ?_⟩
      · simp only [GoMap.set, hk0, if_false, List.map_cons, List.nodup_cons]
        refine ⟨?_, ihnd⟩
        intro hmem
        rcases GoMap.keys_set rest (id v) v k0 hmem with h1 | h1
        · exact hk0 h1
        · exact hnd.1 h1
      · intro q hq
        simp only [GoMap.set, hk0, if_false, List.mem_cons] at hq
        rcases hq with rfl | hq
        · exact hk _ (List.mem_cons_self _ _)
        · exact ihk q hq

theorem GoMap.filter_absent {V : Type} (id : V → String) (m : GoMap V) (k : String)
    (h : Keyed id m) (hk : k ∉ m.map Prod.fst) :
    m.values.filter (fun e => decide (id e = k)) = [] := by
  rw [List.filter_eq_nil_iff]
  intro e he
  simp only [GoMap.values, List.mem_map] at he
  obtain ⟨p, hp, rfl⟩ := he
  have hkey : p.1 = id p.2 := h.2 p hp
  have : p.1 ≠ k := by
    rintro rfl
    exact hk (List.mem_map_of_mem _ hp)
  simpa [← hkey] using this

theorem GoMap.filter_set_self {V : Type} (id : V → String) (m : GoMap V) (v : V)
    (h : Keyed id m) :
    (m.set (id v) v).values.filter (fun e => decide (id e = id v)) = [v] := by
  induction m with
  | nil => simp [GoMap.set, GoMap.values]
  | cons p rest ih =>
    obtain ⟨k0, v0⟩ := p
    have htail := Keyed_tail id _ _ h
    have hhead : k0 = id v0 := h.2 (k0, v0) (List.mem_cons_self _ _)
    have hnd := h.1
    simp only [List.map_cons, List.nodup_cons] at hnd
    by_cases hk0 : k0 = id v
    · have habsent := GoMap.filter_absent id rest (id v) htail (by rw [← hk0]; exact hnd.1)
      simp only [GoMap.values] at habsent
      simp [GoMap.set, GoMap.values, hk0, habsent]
    · have hne : ¬ id v0 = id v := by rw [← hhead]; exact hk0
      simp only [GoMap.values] at ih
      simp [GoMap.set, GoMap.values, hk0, hne, ih htail]

theorem GoMap.filter_set_ne {V : Type} (id : V → String) (m : GoMap V) (v : V)
    (h : Keyed id m) :
    (m.set (id v) v).values.filter (fun e => decide (id e ≠ id v))
      = m.values.filter (fun e => decide (id e ≠ id v)) := by
  induction m with
  | nil => simp [GoMap.set, GoMap.values]
  | cons p rest ih =>
    obtain ⟨k0, v0⟩ := p
    have htail := Keyed_tail id _ _ h
    have hhead : k0 = id v0 := h.2 (k0, v0) (List.mem_cons_self _ _)
    by_cases hk0 : k0 = id v
    · have heq : id v0 = id v := by rw [← hhead]; exact hk0
      simp [GoMap.set, GoMap.values, hk0, heq]
    · have ih' := ih htail
      simp only [GoMap.values] at ih'
      simp only [GoMap.set, hk0, if_false, GoMap.values, List.map_cons, List.filter_cons]
      rw [ih']

theorem GoMap.upsert {V : Type} (id : V → String) (m : GoMap V) (e1 e2 : V)
    (h : Keyed id m) (hid : id e1 = id e2) :
    UpsertLaw (fun m : GoMap V => m.values) (fun m k => m.get k)
      (fun m e => (e, m.set (id e) e)) id m e1 e2 := by
  unfold UpsertLaw
  simp only [hid, GoMap.set_set]
  refine ⟨GoMap.filter_set_self id m e2 h, GoMap.get_set_self _ _ _,
    fun k hk => GoMap.get_set_ne _ _ _ _ hk, ?_, trivial, trivial⟩
  rw [GoMap.filter_set_ne id m e2 h]

theorem GoMap.get_set_isSome {V : Type} (m : GoMap V) (k k' : String) (v : V)
    (h : (m.get k).isSome = true) : ((m.set k' v).get k).isSome = true := by
  by_cases hk : k = k'
  · subst hk
    rw [GoMap.get_set_self]
    rfl
  · rw [GoMap.get_set_ne _ _ _ _ hk]
    exact h

theorem saves_keep_command (saves : List Command) (r : InMemoryCommandRepo)
    (id : String) (h : (r.Get id).isSome = true) :
    ((saves.foldl (fun r c => (r.Save c).2) r).Get id).isSome = true := by
  induction saves generalizing r with
  | nil => exact h
  | cons c rest ih =>
    simp only [List.foldl_cons]
    apply ih
    exact GoMap.get_set_isSome _ _ _ _ h

theorem DeleteCommand_rejects (delete : InMemoryCommandRepo → String → InMemoryCommandRepo)
    (s : BastionService) (id : String) (h : Blank id ∨ s.commands.Get id = none) :
    (DeleteCommand delete s id).1 ≠ none ∧ (DeleteCommand delete s id).2 = s := by
  unfold DeleteCommand
  by_cases hb : TrimSpace id = ""
  · simp [hb]
  · have hnone : s.commands.Get id = none := by
      rcases h with h | h
      · exact absurd ((TrimSpace_eq_empty_iff _).mpr h) hb
      · exact h
    simp [hb, hnone]

theorem Database.deleteCommand_eq (db : Database) (id : String) :
    db.deleteCommand id
      = .ok (if db.commands.all (fun c => decide (c.id ≠ id)) = true then db
          else { db with
                 commands := db.commands.filter (fun c => decide (c.id ≠ id)),
                 executions := db.executions.filter (fun e => decide (e.command_id ≠ id)) }) := by
  unfold Database.deleteCommand
  by_cases h : db.commands.all (fun c => decide (c.id ≠ id)) = true
  · simp only [h, if_true]
  · simp only [h, if_false]
    have hfk : ensureSchema.foreignKeys.find? (fun fk => decide (fk.table = "commands"))
        = some { name := "fk_command", column := "command_id", table := "commands",
                 onDelete := ReferentialAction.cascade } := by decide
    rw [hfk]
    have hkey : ∀ e : ExecutionRow, e.key "command_id" = some e.command_id := by
      intro e
      simp [ExecutionRow.key]
    simp [hkey]

theorem PostgresCommandRepo.Delete_eq (db : Database) (id : String) :
    PostgresCommandRepo.Delete true db id
      = (if db.commands.all (fun c => decide (c.id ≠ id)) = true then db
          else { db with
                 commands := db.commands.filter (fun c => decide (c.id ≠ id)),
                 executions := db.executions.filter (fun e => decide (e.command_id ≠ id)) }) := by
  unfold PostgresCommandRepo.Delete
  simp only [if_true, Database.deleteCommand_eq]

theorem PostgresCommandRepo.Get_isSome (db : Database) (id : String) (c : Command)
    (h : PostgresCommandRepo.Get true db id = some c) :
    ¬ db.commands.all (fun c => decide (c.id ≠ id)) = true := by
  unfold PostgresCommandRepo.Get at h
  simp only [if_true] at h
  intro hall
  rw [List.all_eq_true] at hall
  cases hf : db.commands.find? (fun c => decide (c.id = id)) with
  | none => simp [hf] at h
  | some row =>
    have hmem := List.mem_of_find?_eq_some hf
    have hid := List.find?_some hf
    have hne := hall row hmem
    simp only [decide_eq_true_eq] at hid hne
    exact hne hid

theorem PostgresCommandRepo.Get_none (db : Database) (id : String)
    (h : PostgresCommandRepo.Get true db id = none) :
    db.commands.all (fun c => decide (c.id ≠ id)) = true := by
  unfold PostgresCommandRepo.Get at h
  simp only [if_true, Option.map_eq_none'] at h
  rw [List.find?_eq_none] at h
  rw [List.all_eq_true]
  intro row hrow
  simpa using h row hrow

theorem scanExecution_filter (id : String) (rows : List ExecutionRow) :
    (rows.filter (fun e => decide (e.command_id ≠ id))).filterMap scanExecution
      = (rows.filterMap scanExecution).filter (fun e => decide (e.CommandID ≠ id)) := by
  induction rows with
  | nil => rfl
  | cons row rest ih =>
    obtain ⟨rid, cid, nid, st, sa, ca, out, err, ec, dm⟩ := row
    simp only [ne_eq, decide_not] at ih ⊢
    by_cases hc : cid = id
    · cases out <;> cases err <;> simp [scanExecution, hc, ih, List.filter_cons]
    · cases out <;> cases err <;> simp [scanExecution, hc, ih, List.filter_cons]

theorem find?_filter_other (rows : List CommandRow) (id other : String) (h : other ≠ id) :
    (rows.filter (fun c => decide (c.id ≠ id))).find? (fun c => decide (c.id = other))
      = rows.find? (fun c => decide (c.id = other)) := by
  induction rows with
  | nil => rfl
  | cons row rest ih =>
    by_cases hid : row.id = id
    · have hne : ¬ row.id = other := fun e => h (e.symm.trans hid)
      rw [List.filter_cons_of_neg (by simpa using hid),
        List.find?_cons_of_neg _ (by simpa using hne)]
      exact ih
    · rw [List.filter_cons_of_pos (by simpa using hid)]
      by_cases ho : row.id = other
      · rw [List.find?_cons_of_pos _ (by simpa using ho),
          List.find?_cons_of_pos _ (by simpa using ho)]
      · rw [List.find?_cons_of_neg _ (by simpa using ho),
          List.find?_cons_of_neg _ (by simpa using ho)]
        exact ih

/-! ## The two ways a dispatch ends -/

theorem ExecuteCommand_of_ok (env : Env) (s : BastionService) (commandID nodeID : String)
    (cmd : Command) (node : Node) (r : ExecResponse)
    (hc : s.commands.Get commandID = some cmd) (hn : s.nodes.Get nodeID = some node)
    (h : roundTrip env cmd node = .ok r) :
    (ExecuteCommand env s commandID nodeID).execution = completedRecord env cmd node r ∧
    (ExecuteCommand env s commandID nodeID).err = none ∧
    (ExecuteCommand env s commandID nodeID).saved
      = [runningRecord env cmd node, completedRecord env cmd node r] ∧
    (ExecuteCommand env s commandID nodeID).service
      = afterWrites s (runningRecord env cmd node) (completedRecord env cmd node r) ∧
    (ExecuteCommand env s commandID nodeID).request = some (requestFor cmd) := by
  unfold roundTrip exchange at h
  unfold ExecuteCommand
  simp only [hc, hn]
  simp only [requestFor, httpRequestFor] at h
  cases hm : env.marshal
      { Script := cmd.Script, TimeoutSeconds := cmd.TimeoutSeconds, WorkingDir := "" } with
  | error e => simp [hm] at h
  | ok payload =>
    simp only [hm] at h ⊢
    cases hb : env.newRequest "POST" (TrimRight node.Address "/" ++ "/api/v1/exec") with
    | some e => simp [hb] at h
    | none =>
      simp only [hb] at h ⊢
      cases hd : env.doRequest
          { Method := "POST", URL := TrimRight node.Address "/" ++ "/api/v1/exec",
            Body := payload, Header := [("Content-Type", "application/json")] } with
      | error e => simp [hd] at h
      | ok resp =>
        simp only [hd] at h ⊢
        cases hr : env.decode resp.Body with
        | error e => simp [hr] at h
        | ok r' =>
          simp only [hr] at h ⊢
          have hrr : r' = r := by simpa using h
          subst hrr
          by_cases hz : r'.ExitCode = 0 <;>
            simp [saveExecution, afterWrites, completedRecord, runningRecord, requestFor, hz]

theorem ExecuteCommand_of_error (env : Env) (s : BastionService) (commandID nodeID : String)
    (cmd : Command) (node : Node) (stage : Stage) (e : String)
    (hc : s.commands.Get commandID = some cmd) (hn : s.nodes.Get nodeID = some node)
    (h : roundTrip env cmd node = .error (stage, e)) :
    (ExecuteCommand env s commandID nodeID).execution
      = failedRecord env cmd node (stage.label ++ e) ∧
    (ExecuteCommand env s commandID nodeID).err = some e ∧
    (ExecuteCommand env s commandID nodeID).saved
      = [runningRecord env cmd node, failedRecord env cmd node (stage.label ++ e)] ∧
    (ExecuteCommand env s commandID nodeID).service
      = afterWrites s (runningRecord env cmd node)
          (failedRecord env cmd node (stage.label ++ e)) ∧
    (ExecuteCommand env s commandID nodeID).request = some (requestFor cmd) := by
  unfold roundTrip exchange at h
  unfold ExecuteCommand
  simp only [hc, hn]
  simp only [requestFor, httpRequestFor] at h
  cases hm : env.marshal
      { Script := cmd.Script, TimeoutSeconds := cmd.TimeoutSeconds, WorkingDir := "" } with
  | error e' =>
    simp only [hm] at h ⊢
    obtain ⟨rfl, rfl⟩ : Stage.marshal = stage ∧ e' = e := by simpa using h
    simp [failExecution, saveExecution, failedRecord, runningRecord, afterWrites, requestFor,
      Stage.label]
  | ok payload =>
    simp only [hm] at h ⊢
    cases hb : env.newRequest "POST" (TrimRight node.Address "/" ++ "/api/v1/exec") with
    | some e' =>
      simp only [hb] at h ⊢
      obtain ⟨rfl, rfl⟩ : Stage.build = stage ∧ e' = e := by simpa using h
      simp [failExecution, saveExecution, failedRecord, runningRecord, afterWrites, requestFor,
        Stage.label]
    | none =>
      simp only [hb] at h ⊢
      cases hd : env.doRequest
          { Method := "POST", URL := TrimRight node.Address "/" ++ "/api/v1/exec",
            Body := payload, Header := [("Content-Type", "application/json")] } with
      | error e' =>
        simp only [hd] at h ⊢
        obtain ⟨rfl, rfl⟩ : Stage.send = stage ∧ e' = e := by simpa using h
        simp [failExecution, saveExecution, failedRecord, runningRecord, afterWrites,
          requestFor, Stage.label]
      | ok resp =>
        simp only [hd] at h ⊢
        cases hr : env.decode resp.Body with
        | error e' =>
          simp only [hr] at h ⊢
          obtain ⟨rfl, rfl⟩ : Stage.decode = stage ∧ e' = e := by simpa using h
          simp [failExecution, saveExecution, failedRecord, runningRecord, afterWrites,
            requestFor, Stage.label]
        | ok r' => simp [hr] at h

theorem ExecuteCommand_sent (env : Env) (s : BastionService) (commandID nodeID : String)
    (cmd : Command) (node : Node) (httpReq : HTTPRequest)
    (hc : s.commands.Get commandID = some cmd) (hn : s.nodes.Get nodeID = some node)
    (h : (ExecuteCommand env s commandID nodeID).sent = some httpReq) :
    env.marshal (requestFor cmd) = .ok httpReq.Body ∧
    httpReq = httpRequestFor node httpReq.Body := by
  unfold ExecuteCommand at h
  simp only [hc, hn] at h
  simp only [requestFor, httpRequestFor]
  cases hm : env.marshal
      { Script := cmd.Script, TimeoutSeconds := cmd.TimeoutSeconds, WorkingDir := "" } with
  | error e => simp [hm] at h
  | ok payload =>
    simp only [hm] at h
    cases hb : env.newRequest "POST" (TrimRight node.Address "/" ++ "/api/v1/exec") with
    | some e => simp [hb] at h
    | none =>
      simp only [hb] at h
      cases hd : env.doRequest
          { Method := "POST", URL := TrimRight node.Address "/" ++ "/api/v1/exec",
            Body := payload, Header := [("Content-Type", "application/json")] } with
      | error e =>
        simp only [hd] at h
        have hq := Option.some.inj h
        subst hq
        simp
      | ok resp =>
        simp only [hd] at h
        cases hr : env.decode resp.Body with
        | error e =>
          simp only [hr] at h
          have hq := Option.some.inj h
          subst hq
          simp
        | ok r =>
          simp only [hr] at h
          have hq := Option.some.inj h
          subst hq
          simp

/-! ## Properties of the dispatch service -/

/-- C1: when `commandID` is not in the command store or `nodeID` is not in the node store,
`ExecuteCommand` returns an error, writes nothing, and leaves the execution store (and with
it the execution list) exactly as it was. -/
theorem ExecuteCommand_unknown_id_rejected (env : Env) (s : BastionService)
    (commandID nodeID : String)
    (h : s.commands.Get commandID = none ∨ s.nodes.Get nodeID = none) :
    (ExecuteCommand env s commandID nodeID).err ≠ none ∧
    (ExecuteCommand env s commandID nodeID).service.executions = s.executions ∧
    (ExecuteCommand env s commandID nodeID).service.executions.List = s.executions.List ∧
    (ExecuteCommand env s commandID nodeID).saved = [] ∧
    (ExecuteCommand env s commandID nodeID).service = s := by
  unfold ExecuteCommand
  cases hc : s.commands.Get commandID with
  | none => simp
  | some cmd =>
    cases hn : s.nodes.Get nodeID with
    | none => simp
    | some node => simp [hc, hn] at h

/-- Witness for C1: an unknown command identifier on the sample service. -/
theorem ExecuteCommand_unknown_id_rejected_witness :
    (ExecuteCommand unreachableEnv sampleService "cmd-none" "node-local").err ≠ none ∧
    (ExecuteCommand unreachableEnv sampleService "cmd-none" "node-local").service.executions
      = sampleService.executions ∧
    (ExecuteCommand unreachableEnv sampleService "cmd-none"
        "node-local").service.executions.List = sampleService.executions.List ∧
    (ExecuteCommand unreachableEnv sampleService "cmd-none" "node-local").saved = [] ∧
    (ExecuteCommand unreachableEnv sampleService "cmd-none" "node-local").service
      = sampleService :=
  ExecuteCommand_unknown_id_rejected unreachableEnv sampleService "cmd-none" "node-local"
    (Or.inl (by decide))

/-- C2: for a known command and node and a dispatch that the runner answers with a
well-formed response `r`, `ExecuteCommand` returns no error and an execution that carries
the stdout, stderr, exit code and duration of `r` unchanged, has its completion timestamp
set, is `succeeded` exactly when the exit code of `r` is 0 and `failed` for every other exit
code, and is the record held by the execution store afterwards. -/
theorem ExecuteCommand_wellformed_response (env : Env) (s : BastionService)
    (commandID nodeID : String) (cmd : Command) (node : Node) (r : ExecResponse)
    (hc : s.commands.Get commandID = some cmd) (hn : s.nodes.Get nodeID = some node)
    (h : roundTrip env cmd node = .ok r) :
    (ExecuteCommand env s commandID nodeID).err = none ∧
    (ExecuteCommand env s commandID nodeID).execution.Stdout = r.Stdout ∧
    (ExecuteCommand env s commandID nodeID).execution.Stderr = r.Stderr ∧
    (ExecuteCommand env s commandID nodeID).execution.ExitCode = r.ExitCode ∧
    (ExecuteCommand env s commandID nodeID).execution.DurationMs = r.DurationMs ∧
    (ExecuteCommand env s commandID nodeID).execution.CompletedAt = some env.finished ∧
    ((ExecuteCommand env s commandID nodeID).execution.Status = ExecutionSucceeded
      ↔ r.ExitCode = 0) ∧
    ((ExecuteCommand env s commandID nodeID).execution.Status = ExecutionFailed
      ↔ r.ExitCode ≠ 0) ∧
    (ExecuteCommand env s commandID nodeID).service.executions.Get
        (ExecuteCommand env s commandID nodeID).execution.ID
      = some (ExecuteCommand env s commandID nodeID).execution := by
  obtain ⟨hexec, herr, -, hsvc, -⟩ := ExecuteCommand_of_ok env s commandID nodeID cmd node r hc hn h
  rw [hexec, herr, hsvc]
  refine ⟨rfl, rfl, rfl, rfl, rfl, rfl, ?_, ?_, ?_⟩
  · by_cases hz : r.ExitCode = 0 <;>
      simp [completedRecord, hz, ExecutionSucceeded, ExecutionFailed]
  · by_cases hz : r.ExitCode = 0 <;>
      simp [completedRecord, hz, ExecutionSucceeded, ExecutionFailed]
  · simp only [afterWrites, InMemoryExecutionRepo.Save, InMemoryExecutionRepo.Get]
    exact GoMap.get_set_self _ _ _

/-- Witness for C2: a runner that answers exit code 2 gives a `failed` execution with exit
code 2 and the runner's stderr. -/
theorem ExecuteCommand_wellformed_response_witness :
    (ExecuteCommand (answeringEnv 200 exitTwoResponse) sampleService "cmd-1"
        "node-local").err = none ∧
    (ExecuteCommand (answeringEnv 200 exitTwoResponse) sampleService "cmd-1"
        "node-local").execution.Stderr = "boom" ∧
    (ExecuteCommand (answeringEnv 200 exitTwoResponse) sampleService "cmd-1"
        "node-local").execution.ExitCode = 2 ∧
    ((ExecuteCommand (answeringEnv 200 exitTwoResponse) sampleService "cmd-1"
        "node-local").execution.Status = ExecutionFailed ↔ (2 : Int) ≠ 0) := by
  have h := ExecuteCommand_wellformed_response (answeringEnv 200 exitTwoResponse)
    sampleService "cmd-1" "node-local" sampleCommand localNode exitTwoResponse
    (by decide) (by decide) rfl
  exact ⟨h.1, h.2.2.1, h.2.2.2.1, h.2.2.2.2.2.2.2.1⟩

/-- C3: for a known command and node, when a stage of the dispatch fails (serialising the
request, building it, sending it or receiving the response, decoding the response) with
error `e`, `ExecuteCommand` returns the error together with an execution that is `failed`,
has exit code 1, a completion timestamp, and a non-empty stderr made of the name of the
stage followed by `e`; the execution store holds that execution afterwards, and it has the
identifier, command id, node id and start timestamp of the `running` record written first. -/
theorem ExecuteCommand_stage_failure (env : Env) (s : BastionService)
    (commandID nodeID : String) (cmd : Command) (node : Node) (stage : Stage) (e : String)
    (hc : s.commands.Get commandID = some cmd) (hn : s.nodes.Get nodeID = some node)
    (h : roundTrip env cmd node = .error (stage, e)) :
    (ExecuteCommand env s commandID nodeID).err = some e ∧
    (ExecuteCommand env s commandID nodeID).execution.Status = ExecutionFailed ∧
    (ExecuteCommand env s commandID nodeID).execution.ExitCode = 1 ∧
    (ExecuteCommand env s commandID nodeID).execution.CompletedAt = some env.finished ∧
    (ExecuteCommand env s commandID nodeID).execution.Stderr = stage.label ++ e ∧
    (ExecuteCommand env s commandID nodeID).execution.Stderr ≠ "" ∧
    (ExecuteCommand env s commandID nodeID).service.executions.Get
        (ExecuteCommand env s commandID nodeID).execution.ID
      = some (ExecuteCommand env s commandID nodeID).execution ∧
    ∃ running : Execution,
      (ExecuteCommand env s commandID nodeID).saved
        = [running, (ExecuteCommand env s commandID nodeID).execution] ∧
      running.Status = ExecutionRunning ∧
      (ExecuteCommand env s commandID nodeID).execution.ID = running.ID ∧
      (ExecuteCommand env s commandID nodeID).execution.CommandID = running.CommandID ∧
      (ExecuteCommand env s commandID nodeID).execution.NodeID = running.NodeID ∧
      (ExecuteCommand env s commandID nodeID).execution.StartedAt = running.StartedAt ∧
      running.CommandID = cmd.ID ∧ running.NodeID = node.ID := by
  obtain ⟨hexec, herr, hsaved, hsvc, -⟩ :=
    ExecuteCommand_of_error env s commandID nodeID cmd node stage e hc hn h
  rw [hexec, herr, hsaved, hsvc]
  refine ⟨rfl, rfl, rfl, rfl, rfl, ?_, ?_, runningRecord env cmd node, rfl, rfl, rfl, rfl, rfl,
    rfl, rfl, rfl⟩
  · apply append_ne_empty_of_left
    cases stage <;> decide
  · simp only [afterWrites, InMemoryExecutionRepo.Save, InMemoryExecutionRepo.Get]
    exact GoMap.get_set_self _ _ _

/-- Witness for C3: a node that cannot be reached. -/
theorem ExecuteCommand_stage_failure_witness :
    (ExecuteCommand unreachableEnv sampleService "cmd-1" "node-local").err
      = some "connection refused" ∧
    (ExecuteCommand unreachableEnv sampleService "cmd-1" "node-local").execution.Status
      = ExecutionFailed ∧
    (ExecuteCommand unreachableEnv sampleService "cmd-1" "node-local").execution.ExitCode
      = 1 ∧
    (ExecuteCommand unreachableEnv sampleService "cmd-1" "node-local").execution.Stderr
      = "request failed: " ++ "connection refused" := by
  have h := ExecuteCommand_stage_failure unreachableEnv sampleService "cmd-1" "node-local"
    sampleCommand localNode Stage.send "connection refused" (by decide) (by decide) rfl
  exact ⟨h.1, h.2.1, h.2.2.1, h.2.2.2.2.1⟩

/-- C4, as the claim states it, fails: a response with status 500 whose body decodes as a
response with exit code 0 is not a failure; `ExecuteCommand` returns no error and a
`succeeded` execution with exit code 0. -/
theorem ExecuteCommand_non2xx_counterexample :
    sampleService.commands.Get "cmd-1" = some sampleCommand ∧
    sampleService.nodes.Get "node-local" = some localNode ∧
    exchange (answeringEnv 500 okResponse) sampleCommand localNode
      = .ok { StatusCode := 500, Body := "body" } ∧
    (ExecuteCommand (answeringEnv 500 okResponse) sampleService "cmd-1" "node-local").err
      = none ∧
    (ExecuteCommand (answeringEnv 500 okResponse) sampleService "cmd-1"
        "node-local").execution.Status = ExecutionSucceeded ∧
    (ExecuteCommand (answeringEnv 500 okResponse) sampleService "cmd-1"
        "node-local").execution.ExitCode = 0 ∧
    ¬ ((ExecuteCommand (answeringEnv 500 okResponse) sampleService "cmd-1" "node-local").err
          ≠ none ∧
        (ExecuteCommand (answeringEnv 500 okResponse) sampleService "cmd-1"
          "node-local").execution.Status = ExecutionFailed ∧
        (ExecuteCommand (answeringEnv 500 okResponse) sampleService "cmd-1"
          "node-local").execution.ExitCode = 1) := by
  refine ⟨by decide, by decide, rfl, rfl, rfl, rfl, ?_⟩
  intro h
  exact h.1 rfl

/-- C4, amended: for a known command and node and a response with a non-2xx status code,
the status code is not looked at and the body alone decides. When the body does not decode,
the call is a dispatch failure: the error is returned with a `failed` execution of exit code
1 whose stderr names the decoding stage. When the body decodes as `r`, no error is returned
and the execution carries the exit code of `r`, `succeeded` exactly when that code is 0. -/
theorem ExecuteCommand_non2xx_decided_by_body (env : Env) (s : BastionService)
    (commandID nodeID : String) (cmd : Command) (node : Node) (resp : HTTPResponse)
    (hc : s.commands.Get commandID = some cmd) (hn : s.nodes.Get nodeID = some node)
    (hx : exchange env cmd node = .ok resp)
    (_hs : resp.StatusCode < 200 ∨ 300 ≤ resp.StatusCode) :
    (∀ e, env.decode resp.Body = .error e →
      (ExecuteCommand env s commandID nodeID).err = some e ∧
      (ExecuteCommand env s commandID nodeID).execution.Status = ExecutionFailed ∧
      (ExecuteCommand env s commandID nodeID).execution.ExitCode = 1 ∧
      (ExecuteCommand env s commandID nodeID).execution.Stderr = "decode response: " ++ e) ∧
    (∀ r, env.decode resp.Body = .ok r →
      (ExecuteCommand env s commandID nodeID).err = none ∧
      (ExecuteCommand env s commandID nodeID).execution.ExitCode = r.ExitCode ∧
      ((ExecuteCommand env s commandID nodeID).execution.Status = ExecutionSucceeded
        ↔ r.ExitCode = 0) ∧
      ((ExecuteCommand env s commandID nodeID).execution.Status = ExecutionFailed
        ↔ r.ExitCode ≠ 0)) := by
  constructor
  · intro e he
    have h : roundTrip env cmd node = .error (Stage.decode, e) := by
      simp [roundTrip, hx, he]
    obtain ⟨hexec, herr, -⟩ :=
      ExecuteCommand_of_error env s commandID nodeID cmd node Stage.decode e hc hn h
    rw [hexec, herr]
    exact ⟨rfl, rfl, rfl, rfl⟩
  · intro r hr
    have h : roundTrip env cmd node = .ok r := by
      simp [roundTrip, hx, hr]
    obtain ⟨hexec, herr, -⟩ := ExecuteCommand_of_ok env s commandID nodeID cmd node r hc hn h
    rw [hexec, herr]
    refine ⟨rfl, rfl, ?_, ?_⟩
    · by_cases hz : r.ExitCode = 0 <;>
        simp [completedRecord, hz, ExecutionSucceeded, ExecutionFailed]
    · by_cases hz : r.ExitCode = 0 <;>
        simp [completedRecord, hz, ExecutionSucceeded, ExecutionFailed]

/-- Witness for C4 amended: status 500 with a body that decodes with exit code 2. -/
theorem ExecuteCommand_non2xx_decided_by_body_witness :
    (ExecuteCommand (answeringEnv 500 exitTwoResponse) sampleService "cmd-1"
        "node-local").err = none ∧
    (ExecuteCommand (answeringEnv 500 exitTwoResponse) sampleService "cmd-1"
        "node-local").execution.ExitCode = 2 := by
  have h := (ExecuteCommand_non2xx_decided_by_body (answeringEnv 500 exitTwoResponse)
    sampleService "cmd-1" "node-local" sampleCommand localNode
    { StatusCode := 500, Body := "body" } (by decide) (by decide) rfl
    (Or.inr (by decide))).2 exitTwoResponse rfl
  exact ⟨h.1, h.2.1⟩

/-- C5, as the claim states it, fails: the identifier of a call is not checked against the
store. When the random source yields the six zero bytes of the identifier under which
`earlierExecution` is stored, both writes of the call go to that identifier, which is not
fresh, and the execution stored there before is replaced; the store holds as many
executions as before. -/
theorem ExecuteCommand_stale_identifier_counterexample :
    sampleService.commands.Get "cmd-1" = some sampleCommand ∧
    sampleService.nodes.Get "node-local" = some localNode ∧
    sampleService.executions.Get "exec-000000000000" = some earlierExecution ∧
    (∀ e ∈ (ExecuteCommand collidingEnv sampleService "cmd-1" "node-local").saved,
      e.ID = "exec-000000000000") ∧
    (ExecuteCommand collidingEnv sampleService "cmd-1" "node-local").saved.length = 2 ∧
    (ExecuteCommand collidingEnv sampleService "cmd-1" "node-local").service.executions.Get
        "exec-000000000000" ≠ some earlierExecution ∧
    (ExecuteCommand collidingEnv sampleService "cmd-1"
        "node-local").service.executions.List.length = sampleService.executions.List.length := by
  decide

/-- C5, amended: a call of `ExecuteCommand` that passes the command and node lookup writes to
the execution store exactly twice, both times under the identifier generated for the call:
first a record with status `running` and no completion timestamp, then one record with a
terminal status (`succeeded` or `failed`) and a completion timestamp. No write has status
`pending`; the store afterwards is the store before with these two writes applied; commands
and nodes are untouched; every execution stored under another identifier is unchanged, and
when the generated identifier was not in use every execution stored before is unchanged.
The identifier is `exec-` followed by the hexadecimal digits of the bytes read from the
random source (by the clock reading when that source fails), and calls whose random bytes
differ write under different identifiers. -/
theorem ExecuteCommand_two_writes (env : Env) (s : BastionService)
    (commandID nodeID : String) (cmd : Command) (node : Node)
    (hc : s.commands.Get commandID = some cmd) (hn : s.nodes.Get nodeID = some node) :
    ∃ first second : Execution,
      (ExecuteCommand env s commandID nodeID).saved = [first, second] ∧
      first.ID = randomID env "exec" ∧ second.ID = first.ID ∧
      first.Status = ExecutionRunning ∧ first.CompletedAt = none ∧
      (second.Status = ExecutionSucceeded ∨ second.Status = ExecutionFailed) ∧
      second.CompletedAt ≠ none ∧
      second = (ExecuteCommand env s commandID nodeID).execution ∧
      (∀ e ∈ (ExecuteCommand env s commandID nodeID).saved, e.Status ≠ ExecutionPending) ∧
      (ExecuteCommand env s commandID nodeID).service.executions
        = ((s.executions.Save first).2.Save second).2 ∧
      (ExecuteCommand env s commandID nodeID).service.commands = s.commands ∧
      (ExecuteCommand env s commandID nodeID).service.nodes = s.nodes ∧
      (∀ id, id ≠ first.ID →
        (ExecuteCommand env s commandID nodeID).service.executions.Get id
          = s.executions.Get id) ∧
      (s.executions.Get first.ID = none → ∀ id e, s.executions.Get id = some e →
        (ExecuteCommand env s commandID nodeID).service.executions.Get id = some e) ∧
      (∀ b, env.randRead = .ok b → first.ID = "exec-" ++ hexEncodeToString b) ∧
      (∀ e, env.randRead = .error e → first.ID = "exec-" ++ toString env.unixNano) ∧
      (∀ (env' : Env) (b b' : List Nat), env.randRead = .ok b → env'.randRead = .ok b' →
        (∀ x ∈ b, x < 256) → (∀ x ∈ b', x < 256) → b ≠ b' →
        first.ID ≠ randomID env' "exec") := by
  have hpfx : ∀ t : String, "exec" ++ "-" ++ t = "exec-" ++ t := by
    intro t
    rw [String.append_assoc]
    apply String.ext
    simp [String.data_append]
  have hok : ∀ b, env.randRead = .ok b →
      (runningRecord env cmd node).ID = "exec-" ++ hexEncodeToString b := by
    intro b hb
    simp only [runningRecord, randomID, hb]
    exact hpfx _
  have herr : ∀ e, env.randRead = .error e →
      (runningRecord env cmd node).ID = "exec-" ++ toString env.unixNano := by
    intro e he
    simp only [runningRecord, randomID, he]
    exact hpfx _
  have hdist : ∀ (env' : Env) (b b' : List Nat), env.randRead = .ok b →
      env'.randRead = .ok b' → (∀ x ∈ b, x < 256) → (∀ x ∈ b', x < 256) → b ≠ b' →
      (runningRecord env cmd node).ID ≠ randomID env' "exec" := by
    intro env' b b' hr hr' hb hb' hne heq
    exact hne (randomID_inj env env' "exec" b b' hr hr' hb hb' heq)
  have hframe : ∀ (second : Execution), second.ID = (runningRecord env cmd node).ID →
      ∀ id, id ≠ (runningRecord env cmd node).ID →
        (afterWrites s (runningRecord env cmd node) second).executions.Get id
          = s.executions.Get id := by
    intro second hid id hne
    simp only [afterWrites, InMemoryExecutionRepo.Save, InMemoryExecutionRepo.Get]
    rw [GoMap.get_set_ne _ _ _ _ (by rw [hid]; exact hne), GoMap.get_set_ne _ _ _ _ hne]
  have hfresh : ∀ (second : Execution), second.ID = (runningRecord env cmd node).ID →
      s.executions.Get (runningRecord env cmd node).ID = none →
      ∀ id e, s.executions.Get id = some e →
        (afterWrites s (runningRecord env cmd node) second).executions.Get id = some e := by
    intro second hid hnone id e hget
    have hne : id ≠ (runningRecord env cmd node).ID := by
      rintro rfl
      rw [hnone] at hget
      cases hget
    rw [hframe second hid id hne, hget]
  cases h : roundTrip env cmd node with
  | error se =>
    obtain ⟨stage, e⟩ := se
    obtain ⟨hexec, -, hsaved, hsvc, -⟩ :=
      ExecuteCommand_of_error env s commandID nodeID cmd node stage e hc hn h
    refine ⟨runningRecord env cmd node, failedRecord env cmd node (stage.label ++ e), ?_⟩
    rw [hexec, hsaved, hsvc]
    refine ⟨rfl, rfl, rfl, rfl, rfl, Or.inr rfl, by simp [failedRecord], rfl, ?_, rfl, rfl, rfl,
      hframe _ rfl, hfresh _ rfl, hok, herr, hdist⟩
    intro x hx
    simp only [List.mem_cons, List.mem_singleton, List.not_mem_nil, or_false] at hx
    rcases hx with rfl | rfl
    · show ExecutionRunning ≠ ExecutionPending
      decide
    · show ExecutionFailed ≠ ExecutionPending
      decide
  | ok r =>
    obtain ⟨hexec, -, hsaved, hsvc, -⟩ :=
      ExecuteCommand_of_ok env s commandID nodeID cmd node r hc hn h
    refine ⟨runningRecord env cmd node, completedRecord env cmd node r, ?_⟩
    rw [hexec, hsaved, hsvc]
    refine ⟨rfl, rfl, rfl, rfl, rfl, ?_, by simp [completedRecord], rfl, ?_, rfl, rfl, rfl,
      hframe _ rfl, hfresh _ rfl, hok, herr, hdist⟩
    · by_cases hz : r.ExitCode = 0 <;> simp [completedRecord, hz]
    · intro x hx
      simp only [List.mem_cons, List.mem_singleton, List.not_mem_nil, or_false] at hx
      rcases hx with rfl | rfl
      · show ExecutionRunning ≠ ExecutionPending
        decide
      · by_cases hz : r.ExitCode = 0 <;>
          simp [completedRecord, hz, ExecutionSucceeded, ExecutionFailed, ExecutionPending]

/-- Witness for C5 amended: a dispatch on the sample service whose random source yields
`01 02 03 04 05 06` writes twice under `exec-010203040506`, which is not the identifier that
six zero bytes give, and leaves the execution stored before as it was. -/
theorem ExecuteCommand_two_writes_witness :
    ∃ first second : Execution,
      (ExecuteCommand (answeringEnv 200 okResponse) sampleService "cmd-1" "node-local").saved
        = [first, second] ∧
      first.ID = "exec-010203040506" ∧ second.ID = first.ID ∧
      first.Status = ExecutionRunning ∧
      (second.Status = ExecutionSucceeded ∨ second.Status = ExecutionFailed) ∧
      first.ID ≠ randomID collidingEnv "exec" ∧
      (ExecuteCommand (answeringEnv 200 okResponse) sampleService "cmd-1"
        "node-local").service.executions.Get "exec-000000000000" = some earlierExecution := by
  obtain ⟨first, second, h1, h2, h3, h4, -, h6, -, -, -, -, -, -, -, h14, -, -, h17⟩ :=
    ExecuteCommand_two_writes (answeringEnv 200 okResponse)
      sampleService "cmd-1" "node-local" sampleCommand localNode (by decide) (by decide)
  refine ⟨first, second, h1, h2.trans (by decide), h3, h4, h6, ?_, ?_⟩
  · exact h17 collidingEnv [1, 2, 3, 4, 5, 6] [0, 0, 0, 0, 0, 0] rfl rfl (by decide)
      (by decide) (by decide)
  · exact h14 (by rw [h2]; decide) "exec-000000000000" earlierExecution (by decide)

/-- C8, as the claim states it, fails: for a command saved through the repository with
timeout 0, the run request built and sent by `ExecuteCommand` carries timeout 0, which is
neither 300 nor positive. -/
theorem ExecuteCommand_timeout_counterexample :
    sampleService.commands.Get "cmd-0" = some untimedCommand ∧
    untimedCommand.TimeoutSeconds ≤ 0 ∧
    (ExecuteCommand (answeringEnv 200 okResponse) sampleService "cmd-0" "node-local").request
      = some { Script := "uptime", TimeoutSeconds := 0, WorkingDir := "" } ∧
    (ExecuteCommand (answeringEnv 200 okResponse) sampleService "cmd-0" "node-local").sent
      ≠ none ∧
    ¬ (∃ req : ExecRequest,
        (ExecuteCommand (answeringEnv 200 okResponse) sampleService "cmd-0"
          "node-local").request = some req ∧ req.TimeoutSeconds = 300) := by
  refine ⟨by decide, by decide, rfl, by decide, ?_⟩
  rintro ⟨req, hreq, h300⟩
  have h0 : (ExecuteCommand (answeringEnv 200 okResponse) sampleService "cmd-0"
      "node-local").request
      = some { Script := "uptime", TimeoutSeconds := 0, WorkingDir := "" } := rfl
  rw [h0] at hreq
  have := Option.some.inj hreq
  subst this
  simp at h300

/-- C8, amended: for a command present in the store and a known node, the run request of
`ExecuteCommand` carries the command's script and the command's stored timeout unchanged,
so the timeout sent is positive exactly when the stored one is; the body of the HTTP request
handed to the transport is the serialisation of that run request and its address is the
node's address followed by `/api/v1/exec`. On the runner, `handleExec` gives the script a
timeout of 300 seconds when the received timeout is not positive, and of the received
number of seconds when that is positive and at most 9223372036, the most a `time.Duration`
holds; in every case the timeout is the `int64` product of the seconds and `time.Second`,
which wraps around beyond that bound. -/
theorem ExecuteCommand_request_carries_stored_timeout (env : Env) (s : BastionService)
    (commandID nodeID : String) (cmd : Command) (node : Node)
    (hc : s.commands.Get commandID = some cmd) (hn : s.nodes.Get nodeID = some node) :
    (∃ req : ExecRequest,
      (ExecuteCommand env s commandID nodeID).request = some req ∧
      req.Script = cmd.Script ∧ req.TimeoutSeconds = cmd.TimeoutSeconds ∧
      (0 < req.TimeoutSeconds ↔ 0 < cmd.TimeoutSeconds) ∧
      ∀ httpReq, (ExecuteCommand env s commandID nodeID).sent = some httpReq →
        env.marshal req = .ok httpReq.Body ∧
        httpReq.URL = TrimRight node.Address "/" ++ "/api/v1/exec") ∧
    (∀ (denv : DaemonEnv) (body : String) (received : ExecRequest),
      denv.decodeRequest body = .ok received →
      (received.TimeoutSeconds ≤ 0 →
        (handleExec denv "POST" body).timeout = some (300 * Second)) ∧
      (0 < received.TimeoutSeconds → received.TimeoutSeconds ≤ 9223372036 →
        (handleExec denv "POST" body).timeout = some (received.TimeoutSeconds * Second) ∧
        0 < received.TimeoutSeconds * Second) ∧
      (handleExec denv "POST" body).timeout
        = some (wrapInt64 (wrapInt64
            (if received.TimeoutSeconds ≤ 0 then 300 else received.TimeoutSeconds) * Second))) := by
  constructor
  · refine ⟨requestFor cmd, ?_, rfl, rfl, Iff.rfl, ?_⟩
    · cases h : roundTrip env cmd node with
      | error se =>
        obtain ⟨stage, e⟩ := se
        exact (ExecuteCommand_of_error env s commandID nodeID cmd node stage e hc hn h).2.2.2.2
      | ok r =>
        exact (ExecuteCommand_of_ok env s commandID nodeID cmd node r hc hn h).2.2.2.2
    · intro httpReq hsent
      obtain ⟨hm, hq⟩ := ExecuteCommand_sent env s commandID nodeID cmd node httpReq hc hn hsent
      refine ⟨hm, ?_⟩
      rw [hq]
      rfl
  · intro denv body received hdec
    have ht : (handleExec denv "POST" body).timeout
        = some (wrapInt64 (wrapInt64
            (if received.TimeoutSeconds ≤ 0 then 300 else received.TimeoutSeconds) * Second)) := by
      unfold handleExec
      simp only [hdec]
      by_cases hz : received.TimeoutSeconds ≤ 0
      · simp [hz]
      · have hpos : 0 < received.TimeoutSeconds := not_le.mp hz
        simp [hz, hpos]
    refine ⟨?_, ?_, ht⟩
    · intro hz
      rw [ht]
      simp only [hz, if_true]
      decide
    · intro hpos hle
      have hz : ¬ received.TimeoutSeconds ≤ 0 := not_le.mpr hpos
      refine ⟨?_, ?_⟩
      · rw [ht]
        simp only [hz, if_false]
        rw [wrapInt64_of_range received.TimeoutSeconds (by omega) (by omega),
          wrapInt64_of_range _ (by unfold Second; omega) (by unfold Second; omega)]
      · unfold Second
        omega

/-- Witness for C8 amended: the sample command with timeout 60 is sent with timeout 60; a
runner that receives timeout 0 bounds the script by 300 seconds, one that receives 60 by 60
seconds, and one that receives 9223372037 by a duration that has wrapped below zero. -/
theorem ExecuteCommand_request_carries_stored_timeout_witness :
    (∃ req : ExecRequest,
      (ExecuteCommand (answeringEnv 200 okResponse) sampleService "cmd-1"
        "node-local").request = some req ∧
      req.Script = "docker ps" ∧ req.TimeoutSeconds = 60) ∧
    (handleExec (receivingDaemon (requestFor untimedCommand)) "POST" "body").timeout
      = some 300000000000 ∧
    (handleExec (receivingDaemon (requestFor sampleCommand)) "POST" "body").timeout
      = some 60000000000 ∧
    (handleExec (receivingDaemon overlongRequest) "POST" "body").timeout
      = some (-9223372036709551616) := by
  have h := ExecuteCommand_request_carries_stored_timeout
    (answeringEnv 200 okResponse) sampleService "cmd-1" "node-local" sampleCommand localNode
    (by decide) (by decide)
  obtain ⟨req, hreq⟩ := h.1
  refine ⟨⟨req, hreq.1, hreq.2.1, hreq.2.2.1⟩, ?_, ?_, ?_⟩
  · exact (h.2 (receivingDaemon (requestFor untimedCommand)) "body"
      (requestFor untimedCommand) rfl).1 (by decide)
  · exact ((h.2 (receivingDaemon (requestFor sampleCommand)) "body"
      (requestFor sampleCommand) rfl).2.1 (by decide) (by decide)).1
  · exact (h.2 (receivingDaemon overlongRequest) "body" overlongRequest rfl).2.2.trans
      (by decide)

/-! ## Properties of command creation -/

/-- C6: when the name of the input is blank (empty or white space only) or its script is
blank, `CreateCommand` returns an error and the zero command, and the service, its command
store and the command list are exactly as before: nothing is persisted. -/
theorem CreateCommand_blank_rejected (env : Env) (s : BastionService) (input : Command)
    (h : Blank input.Name ∨ Blank input.Script) :
    (CreateCommand env s input).err ≠ none ∧
    (CreateCommand env s input).command = Command.zero ∧
    (CreateCommand env s input).service = s ∧
    (CreateCommand env s input).service.commands = s.commands ∧
    (CreateCommand env s input).service.commands.List = s.commands.List := by
  unfold CreateCommand
  by_cases hname : TrimSpace input.Name = ""
  · simp [hname]
  · have hscript : TrimSpace input.Script = "" := by
      rcases h with h | h
      · exact absurd ((TrimSpace_eq_empty_iff _).mpr h) hname
      · exact (TrimSpace_eq_empty_iff _).mpr h
    simp [hname, hscript]

/-- Witness for C6: an input whose name is a space and a tab. -/
theorem CreateCommand_blank_rejected_witness :
    (CreateCommand unreachableEnv sampleService namelessInput).err ≠ none ∧
    (CreateCommand unreachableEnv sampleService namelessInput).command = Command.zero ∧
    (CreateCommand unreachableEnv sampleService namelessInput).service = sampleService ∧
    (CreateCommand unreachableEnv sampleService namelessInput).service.commands
      = sampleService.commands ∧
    (CreateCommand unreachableEnv sampleService namelessInput).service.commands.List
      = sampleService.commands.List :=
  CreateCommand_blank_rejected unreachableEnv sampleService namelessInput
    (Or.inl (by decide))

/-- C7: for an input with a non-blank name and a non-blank script, `CreateCommand` returns no
error and a command whose timeout is 300 when the input timeout is not positive and the
input timeout itself when it is positive, hence always positive; the command returned keeps
the name, description and script of the input and is the one the command store holds under
its identifier afterwards. -/
theorem CreateCommand_timeout_default (env : Env) (s : BastionService) (input : Command)
    (hname : ¬ Blank input.Name) (hscript : ¬ Blank input.Script) :
    (CreateCommand env s input).err = none ∧
    (CreateCommand env s input).command.TimeoutSeconds
      = (if input.TimeoutSeconds ≤ 0 then 300 else input.TimeoutSeconds) ∧
    0 < (CreateCommand env s input).command.TimeoutSeconds ∧
    (CreateCommand env s input).command.Name = input.Name ∧
    (CreateCommand env s input).command.Description = input.Description ∧
    (CreateCommand env s input).command.Script = input.Script ∧
    (CreateCommand env s input).service.commands.Get (CreateCommand env s input).command.ID
      = some (CreateCommand env s input).command := by
  have h1 : ¬ TrimSpace input.Name = "" := fun h => hname ((TrimSpace_eq_empty_iff _).mp h)
  have h2 : ¬ TrimSpace input.Script = "" := fun h => hscript ((TrimSpace_eq_empty_iff _).mp h)
  unfold CreateCommand
  simp only [h1, h2, if_false, InMemoryCommandRepo.Save, InMemoryCommandRepo.Get]
  by_cases hz : input.TimeoutSeconds ≤ 0
  · simp [hz, GoMap.get_set_self]
  · simp [hz, GoMap.get_set_self]
    exact not_le.mp hz

/-- Witness for C7: an input that leaves the timeout unset is stored with timeout 300. -/
theorem CreateCommand_timeout_default_witness :
    (CreateCommand unreachableEnv sampleService untimedInput).err = none ∧
    (CreateCommand unreachableEnv sampleService untimedInput).command.TimeoutSeconds
      = (if (0 : Int) ≤ 0 then 300 else 0) ∧
    0 < (CreateCommand unreachableEnv sampleService untimedInput).command.TimeoutSeconds := by
  have h := CreateCommand_timeout_default unreachableEnv sampleService untimedInput
    (by decide) (by decide)
  exact ⟨h.1, h.2.1, h.2.2.1⟩

/-! ## Properties of the in-memory repositories -/

/-- C9: each in-memory repository (commands, nodes, executions) whose map holds one binding
per key, stored under the identifier of its value, obeys the upsert contract for any two
entities `e1`, `e2` with the same identifier: after `Save e1` then `Save e2` the list holds
exactly one entity with that identifier and it is `e2`, `Get` returns `e2`, the entities
with other identifiers are unchanged, and saving the same entity twice gives the store
obtained by saving it once. -/
theorem InMemoryRepo_upsert :
    (∀ (r : InMemoryCommandRepo) (e1 e2 : Command), Keyed Command.ID r.data →
      e1.ID = e2.ID →
      UpsertLaw InMemoryCommandRepo.List InMemoryCommandRepo.Get InMemoryCommandRepo.Save
        Command.ID r e1 e2) ∧
    (∀ (r : InMemoryNodeRepo) (e1 e2 : Node), Keyed Node.ID r.data →
      e1.ID = e2.ID →
      UpsertLaw InMemoryNodeRepo.List InMemoryNodeRepo.Get InMemoryNodeRepo.Save
        Node.ID r e1 e2) ∧
    (∀ (r : InMemoryExecutionRepo) (e1 e2 : Execution), Keyed Execution.ID r.data →
      e1.ID = e2.ID →
      UpsertLaw InMemoryExecutionRepo.List InMemoryExecutionRepo.Get
        InMemoryExecutionRepo.Save Execution.ID r e1 e2) := by
  refine ⟨?_, ?_, ?_⟩
  · intro r e1 e2 hk hid
    obtain ⟨h1, h2, h3, h4, -, h6⟩ := GoMap.upsert Command.ID r.data e1 e2 hk hid
    exact ⟨h1, h2, h3, h4, rfl, congrArg InMemoryCommandRepo.mk h6⟩
  · intro r e1 e2 hk hid
    obtain ⟨h1, h2, h3, h4, -, h6⟩ := GoMap.upsert Node.ID r.data e1 e2 hk hid
    exact ⟨h1, h2, h3, h4, rfl, congrArg InMemoryNodeRepo.mk h6⟩
  · intro r e1 e2 hk hid
    obtain ⟨h1, h2, h3, h4, -, h6⟩ := GoMap.upsert Execution.ID r.data e1 e2 hk hid
    exact ⟨h1, h2, h3, h4, rfl, congrArg InMemoryExecutionRepo.mk h6⟩

/-- Witness for C9: on repositories built by `Save` from the empty ones, saving a second
version of a stored command, node or execution replaces the first. -/
theorem InMemoryRepo_upsert_witness :
    UpsertLaw InMemoryCommandRepo.List InMemoryCommandRepo.Get InMemoryCommandRepo.Save
      Command.ID (NewInMemoryCommandRepo.Save untimedCommand).2 sampleCommand
      { sampleCommand with Script := "docker ps -a" } ∧
    UpsertLaw InMemoryNodeRepo.List InMemoryNodeRepo.Get InMemoryNodeRepo.Save
      Node.ID NewInMemoryNodeRepo localNode { localNode with Name := "Renamed" } ∧
    UpsertLaw InMemoryExecutionRepo.List InMemoryExecutionRepo.Get
      InMemoryExecutionRepo.Save Execution.ID (NewInMemoryExecutionRepo.Save earlierExecution).2
      (runningRecord unreachableEnv sampleCommand localNode)
      (failedRecord unreachableEnv sampleCommand localNode "request failed: timeout") :=
  ⟨InMemoryRepo_upsert.1 (NewInMemoryCommandRepo.Save untimedCommand).2 sampleCommand
      { sampleCommand with Script := "docker ps -a" }
      (Keyed_set Command.ID [] untimedCommand (Keyed_nil _)) rfl,
    InMemoryRepo_upsert.2.1 NewInMemoryNodeRepo localNode { localNode with Name := "Renamed" }
      (Keyed_nil _) rfl,
    InMemoryRepo_upsert.2.2 (NewInMemoryExecutionRepo.Save earlierExecution).2
      (runningRecord unreachableEnv sampleCommand localNode)
      (failedRecord unreachableEnv sampleCommand localNode "request failed: timeout")
      (Keyed_set Execution.ID [] earlierExecution (Keyed_nil _)) rfl⟩

/-! ## Properties of the remote runner -/

/-- C10: for a script that is empty or white space only, whatever the working directory and
the context, `runScript` asks the operating system to run no process and returns an empty
stdout, the stderr `empty script`, exit code 1 and a non-nil error. -/
theorem runScript_blank_rejected (run : Spawner) (ctx : Context) (script workdir : String)
    (h : Blank script) :
    (runScript run ctx script workdir).spawned = [] ∧
    (runScript run ctx script workdir).stdout = "" ∧
    (runScript run ctx script workdir).stderr = "empty script" ∧
    (runScript run ctx script workdir).exitCode = 1 ∧
    (runScript run ctx script workdir).err ≠ none ∧
    (runScript run ctx script workdir).err = some "empty script" := by
  have ht : TrimSpace script = "" := (TrimSpace_eq_empty_iff script).mpr h
  unfold runScript
  simp [ht]

/-- Witness for C10: a script of spaces, a tab and a newline, on an operating system that
would run anything. -/
theorem runScript_blank_rejected_witness :
    (runScript obligingSpawner (some 300) "  \t\n" "/tmp").spawned = [] ∧
    (runScript obligingSpawner (some 300) "  \t\n" "/tmp").stdout = "" ∧
    (runScript obligingSpawner (some 300) "  \t\n" "/tmp").stderr = "empty script" ∧
    (runScript obligingSpawner (some 300) "  \t\n" "/tmp").exitCode = 1 ∧
    (runScript obligingSpawner (some 300) "  \t\n" "/tmp").err ≠ none ∧
    (runScript obligingSpawner (some 300) "  \t\n" "/tmp").err = some "empty script" :=
  runScript_blank_rejected obligingSpawner (some 300) "  \t\n" "/tmp" (by decide)

/-- C11, as the claim states it, fails: for a non-blank script whose process is killed by a
signal, `runScript` reports the exit code of the process state, which is -1 and not 1. -/
theorem runScript_killed_counterexample :
    ¬ Blank "sleep 600" ∧
    (killingSpawner (some 1) ["bash", "-lc", "sleep 600"] "").err
      = some (.exitError (.signaled "killed")) ∧
    (runScript killingSpawner (some 1) "sleep 600" "").exitCode = -1 ∧
    (runScript killingSpawner (some 1) "sleep 600" "").stderr = "signal: killed" ∧
    ¬ ((runScript killingSpawner (some 1) "sleep 600" "").exitCode = 1) := by
  refine ⟨by decide, rfl, by decide, by decide, by decide⟩

/-- C11, amended: for a non-blank script run in `workdir`, with `out` what the operating
system reports for the process. When the process could not be started (an error that is not
an exit error), `runScript` reports exit code 1 and as stderr the captured stderr if there is
any, the failure reason otherwise. When a signal terminated the process, it reports the exit
code of the process state, -1, and as stderr the captured stderr if there is any, the words
`signal: ` and the signal otherwise, which is not empty. When the process exited with a code
other than by success, it reports that code with a non-empty stderr; without error it
reports exit code 0 and the captured stderr. Hence, failure reasons being non-empty texts,
stderr is non-empty whenever `runScript` returns an error and whenever the exit code reported
is 1. -/
theorem runScript_failure_reporting (run : Spawner) (ctx : Context) (script workdir : String)
    (hs : ¬ Blank script) :
    (∀ msg, (run ctx ["bash", "-lc", script] workdir).err = some (.other msg) →
      (runScript run ctx script workdir).exitCode = 1 ∧
      (runScript run ctx script workdir).stderr
        = (if (run ctx ["bash", "-lc", script] workdir).stderr = "" then msg
            else (run ctx ["bash", "-lc", script] workdir).stderr)) ∧
    (∀ signal,
      (run ctx ["bash", "-lc", script] workdir).err = some (.exitError (.signaled signal)) →
      (runScript run ctx script workdir).exitCode = -1 ∧
      (runScript run ctx script workdir).stderr
        = (if (run ctx ["bash", "-lc", script] workdir).stderr = "" then "signal: " ++ signal
            else (run ctx ["bash", "-lc", script] workdir).stderr) ∧
      (runScript run ctx script workdir).stderr ≠ "") ∧
    (∀ code,
      (run ctx ["bash", "-lc", script] workdir).err = some (.exitError (.exited code)) →
      (runScript run ctx script workdir).exitCode = code ∧
      (runScript run ctx script workdir).stderr ≠ "") ∧
    ((run ctx ["bash", "-lc", script] workdir).err = none →
      (runScript run ctx script workdir).exitCode = 0 ∧
      (runScript run ctx script workdir).err = none ∧
      (runScript run ctx script workdir).stderr
        = (run ctx ["bash", "-lc", script] workdir).stderr) ∧
    ((∀ msg, (run ctx ["bash", "-lc", script] workdir).err = some (.other msg) → msg ≠ "") →
      ((runScript run ctx script workdir).err ≠ none →
        (runScript run ctx script workdir).stderr ≠ "") ∧
      ((runScript run ctx script workdir).exitCode = 1 →
        (runScript run ctx script workdir).stderr ≠ "")) := by
  have ht : ¬ TrimSpace script = "" := fun h => hs ((TrimSpace_eq_empty_iff _).mp h)
  have hdir : (if workdir ≠ "" then workdir else "") = workdir := by
    by_cases h : workdir = "" <;> simp [h]
  have hsig : ∀ signal : String, "signal: " ++ signal ≠ "" :=
    fun signal => append_ne_empty_of_left _ _ (by decide)
  have hexit : ∀ code : Int, "exit status " ++ toString code ≠ "" :=
    fun code => append_ne_empty_of_left _ _ (by decide)
  unfold runScript
  simp only [ht, if_false, hdir]
  generalize run ctx ["bash", "-lc", script] workdir = out
  obtain ⟨captured, errors, err⟩ := out
  by_cases hcap : errors = ""
  · subst hcap
    have hz : ("" : String).utf8ByteSize = 0 := rfl
    cases err with
    | none => simp
    | some e =>
      cases e with
      | other msg => simp [RunError.Error, hz]
      | exitError state =>
        cases state with
        | exited code =>
          have h1 := hexit code
          simp [RunError.Error, ProcessState.ExitCode, h1, hz]
        | signaled signal =>
          have h1 := hsig signal
          simp [RunError.Error, ProcessState.ExitCode, h1, hz]
  · have hsize : ¬ errors.utf8ByteSize = 0 := fun h => hcap ((utf8ByteSize_eq_zero_iff _).mp h)
    cases err with
    | none => simp
    | some e =>
      cases e with
      | other msg => simp [hsize, hcap]
      | exitError state =>
        cases state with
        | exited code => simp [ProcessState.ExitCode, hsize, hcap]
        | signaled signal => simp [ProcessState.ExitCode, hsize, hcap]

/-- Witness for C11 amended: when no process can be started, the exit code is 1 and stderr
is the failure reason. -/
theorem runScript_failure_reporting_witness :
    (runScript barrenSpawner (some 300) "ls" "").exitCode = 1 ∧
    (runScript barrenSpawner (some 300) "ls" "").stderr
      = "fork/exec /usr/bin/bash: no such file or directory" := by
  have h := (runScript_failure_reporting barrenSpawner (some 300) "ls" "" (by decide)).1
    "fork/exec /usr/bin/bash: no such file or directory" rfl
  exact ⟨h.1, h.2.trans (by decide)⟩

/-! ## Properties of the execution history -/

/-- C14: for every state of the execution store, `ListExecutions` returns a permutation of
the executions the store lists (none added, dropped or duplicated) in which the start
timestamps descend: in every adjacent pair, and in fact in every pair, the start timestamp
of the later element is not after that of the earlier one. -/
theorem ListExecutions_sorted_perm (s : BastionService) :
    (ListExecutions s).Perm s.executions.List ∧
    List.Chain' (fun a b : Execution => ¬ a.StartedAt < b.StartedAt) (ListExecutions s) ∧
    List.Pairwise (fun a b : Execution => b.StartedAt ≤ a.StartedAt) (ListExecutions s) := by
  have hsorted : List.Pairwise (fun a b : Execution => b.StartedAt ≤ a.StartedAt)
      (ListExecutions s) := by
    unfold ListExecutions sortSlice
    haveI : IsTotal Execution
        (fun a b => ¬ Time.After b.StartedAt a.StartedAt = true) :=
      ⟨fun a b => by
        simp only [Time.After, decide_eq_true_eq, not_lt]
        exact le_total _ _⟩
    haveI : IsTrans Execution
        (fun a b => ¬ Time.After b.StartedAt a.StartedAt = true) :=
      ⟨fun a b c hab hbc => by
        simp only [Time.After, decide_eq_true_eq, not_lt] at hab hbc ⊢
        exact le_trans hbc hab⟩
    have h := List.sorted_insertionSort
      (fun a b : Execution => ¬ Time.After b.StartedAt a.StartedAt = true) s.executions.List
    refine List.Pairwise.imp ?_ h
    intro a b hab
    simpa [Time.After] using hab
  refine ⟨?_, ?_, hsorted⟩
  · unfold ListExecutions sortSlice
    exact List.perm_insertionSort _ _
  · refine List.Pairwise.chain' (List.Pairwise.imp ?_ hsorted)
    intro a b hab
    exact not_lt.mpr hab

/-- C13, as the claim states it, fails on the relational backend: deleting the command
`cmd-1`, which a stored execution references, removes that execution from the list. -/
theorem PostgresCommandRepo_Delete_counterexample :
    PostgresCommandRepo.Get true sampleDatabase "cmd-1" = some sampleCommand ∧
    earlierExecution.CommandID = "cmd-1" ∧
    PostgresExecutionRepo.List true sampleDatabase = [laterExecution, earlierExecution] ∧
    PostgresExecutionRepo.List true (PostgresCommandRepo.Delete true sampleDatabase "cmd-1")
      = [laterExecution] ∧
    PostgresExecutionRepo.List true (PostgresCommandRepo.Delete true sampleDatabase "cmd-1")
      ≠ PostgresExecutionRepo.List true sampleDatabase := by
  decide

/-- C13, amended. On the in-memory backend the execution history survives the deletion of a
command: whatever the command store does to delete, after `DeleteCommand` the execution
store, its list and `ListExecutions` are exactly what they were. On the relational backend,
deleting a stored command deletes with it the executions that reference it and nothing else
of the history: the rows of `executions` afterwards are the rows before whose command id is
not the deleted identifier, the execution list afterwards is the list before without the
executions of that command (so it is the same list when no stored execution references the
command), the command is absent afterwards, the other commands and the nodes are untouched;
deleting an absent command, or a statement that does not reach the database, changes
nothing. Every execution that `ExecuteCommand` writes or returns, for a command and a node
found by the lookup, carries the identifiers of that command and that node. -/
theorem history_after_command_deletion :
    (∀ (delete : InMemoryCommandRepo → String → InMemoryCommandRepo) (s : BastionService)
        (id : String),
      (DeleteCommand delete s id).2.executions = s.executions ∧
      (DeleteCommand delete s id).2.executions.List = s.executions.List ∧
      ListExecutions (DeleteCommand delete s id).2 = ListExecutions s ∧
      (DeleteCommand delete s id).2.nodes = s.nodes) ∧
    (∀ (db : Database) (id : String) (c : Command),
      PostgresCommandRepo.Get true db id = some c →
      (PostgresCommandRepo.Delete true db id).executions
        = db.executions.filter (fun e => decide (e.command_id ≠ id)) ∧
      (PostgresExecutionRepo.List true (PostgresCommandRepo.Delete true db id)).Perm
        ((PostgresExecutionRepo.List true db).filter (fun e => decide (e.CommandID ≠ id))) ∧
      (∀ e, e ∈ PostgresExecutionRepo.List true (PostgresCommandRepo.Delete true db id)
        ↔ e ∈ PostgresExecutionRepo.List true db ∧ e.CommandID ≠ id) ∧
      ((∀ e ∈ db.executions, e.command_id ≠ id) →
        PostgresExecutionRepo.List true (PostgresCommandRepo.Delete true db id)
          = PostgresExecutionRepo.List true db) ∧
      PostgresCommandRepo.Get true (PostgresCommandRepo.Delete true db id) id = none ∧
      (∀ other, other ≠ id →
        PostgresCommandRepo.Get true (PostgresCommandRepo.Delete true db id) other
          = PostgresCommandRepo.Get true db other) ∧
      (PostgresCommandRepo.Delete true db id).nodes = db.nodes) ∧
    (∀ (db : Database) (id : String),
      (PostgresCommandRepo.Get true db id = none →
        PostgresCommandRepo.Delete true db id = db) ∧
      PostgresCommandRepo.Delete false db id = db) ∧
    (∀ (env : Env) (s : BastionService) (commandID nodeID : String) (cmd : Command)
        (node : Node),
      s.commands.Get commandID = some cmd → s.nodes.Get nodeID = some node →
      (ExecuteCommand env s commandID nodeID).execution.CommandID = cmd.ID ∧
      (ExecuteCommand env s commandID nodeID).execution.NodeID = node.ID ∧
      ∀ e ∈ (ExecuteCommand env s commandID nodeID).saved,
        e.CommandID = cmd.ID ∧ e.NodeID = node.ID) := by
  refine ⟨?_, ?_, ?_, ?_⟩
  · intro delete s id
    have hexec : (DeleteCommand delete s id).2.executions = s.executions := by
      unfold DeleteCommand
      split
      · rfl
      · split <;> rfl
    have hnodes : (DeleteCommand delete s id).2.nodes = s.nodes := by
      unfold DeleteCommand
      split
      · rfl
      · split <;> rfl
    refine ⟨hexec, by rw [hexec], ?_, hnodes⟩
    unfold ListExecutions
    rw [hexec]
  · intro db id c hget
    have hsome := PostgresCommandRepo.Get_isSome db id c hget
    have hdel : PostgresCommandRepo.Delete true db id
        = { db with
            commands := db.commands.filter (fun c => decide (c.id ≠ id)),
            executions := db.executions.filter (fun e => decide (e.command_id ≠ id)) } := by
      rw [PostgresCommandRepo.Delete_eq, if_neg hsome]
    have hperm : (PostgresExecutionRepo.List true (PostgresCommandRepo.Delete true db id)).Perm
        ((PostgresExecutionRepo.List true db).filter (fun e => decide (e.CommandID ≠ id))) := by
      rw [hdel]
      unfold PostgresExecutionRepo.List
      simp only [if_true]
      rw [← scanExecution_filter]
      apply List.Perm.filterMap
      exact (List.perm_insertionSort _ _).trans
        ((List.perm_insertionSort _ db.executions).filter _).symm
    refine ⟨by rw [hdel], hperm, ?_, ?_, ?_, ?_, by rw [hdel]⟩
    · intro e
      rw [hperm.mem_iff, List.mem_filter, decide_eq_true_eq]
    · intro hfree
      have hrows : db.executions.filter (fun e => decide (e.command_id ≠ id))
          = db.executions := by
        rw [List.filter_eq_self]
        intro e he
        simpa using hfree e he
      rw [hdel]
      unfold PostgresExecutionRepo.List
      simp only [hrows]
    · rw [hdel]
      unfold PostgresCommandRepo.Get
      simp only [if_true, Option.map_eq_none']
      rw [List.find?_eq_none]
      intro row hrow
      simp only [List.mem_filter, decide_eq_true_eq] at hrow
      simpa using hrow.2
    · intro other hother
      rw [hdel]
      unfold PostgresCommandRepo.Get
      simp only [if_true]
      rw [find?_filter_other db.commands id other hother]
  · intro db id
    refine ⟨?_, rfl⟩
    intro hnone
    rw [PostgresCommandRepo.Delete_eq, if_pos (PostgresCommandRepo.Get_none db id hnone)]
  · intro env s commandID nodeID cmd node hc hn
    cases h : roundTrip env cmd node with
    | error se =>
      obtain ⟨stage, e⟩ := se
      obtain ⟨hexec, -, hsaved, -⟩ :=
        ExecuteCommand_of_error env s commandID nodeID cmd node stage e hc hn h
      rw [hexec, hsaved]
      refine ⟨rfl, rfl, ?_⟩
      intro x hx
      simp only [List.mem_cons, List.mem_singleton, List.not_mem_nil, or_false] at hx
      rcases hx with rfl | rfl <;> exact ⟨rfl, rfl⟩
    | ok r =>
      obtain ⟨hexec, -, hsaved, -⟩ :=
        ExecuteCommand_of_ok env s commandID nodeID cmd node r hc hn h
      rw [hexec, hsaved]
      refine ⟨rfl, rfl, ?_⟩
      intro x hx
      simp only [List.mem_cons, List.mem_singleton, List.not_mem_nil, or_false] at hx
      rcases hx with rfl | rfl <;> exact ⟨rfl, rfl⟩

/-- Witness for C13 amended, on the sample database: deleting `cmd-1`, which
`earlierExecution` references, leaves in the list exactly the executions of the other
commands and makes the command absent; deleting `cmd-2`, which no execution references,
leaves the list as it was; and a dispatch on the sample service records the identifiers of
the command and node it looked up. -/
theorem history_after_command_deletion_witness :
    (∀ e, e ∈ PostgresExecutionRepo.List true
          (PostgresCommandRepo.Delete true sampleDatabase "cmd-1")
      ↔ e ∈ PostgresExecutionRepo.List true sampleDatabase ∧ e.CommandID ≠ "cmd-1") ∧
    PostgresCommandRepo.Get true (PostgresCommandRepo.Delete true sampleDatabase "cmd-1")
      "cmd-1" = none ∧
    PostgresExecutionRepo.List true (PostgresCommandRepo.Delete true sampleDatabase "cmd-2")
      = PostgresExecutionRepo.List true sampleDatabase ∧
    (ExecuteCommand unreachableEnv sampleService "cmd-1" "node-local").execution.CommandID
      = "cmd-1" ∧
    (ExecuteCommand unreachableEnv sampleService "cmd-1" "node-local").execution.NodeID
      = "node-local" := by
  have h := history_after_command_deletion
  have h1 := h.2.1 sampleDatabase "cmd-1" sampleCommand (by decide)
  have h2 := h.2.1 sampleDatabase "cmd-2" idleCommand (by decide)
  have hx := h.2.2.2 unreachableEnv sampleService "cmd-1" "node-local" sampleCommand
    localNode (by decide) (by decide)
  exact ⟨h1.2.2.1, h1.2.2.2.2.1, h2.2.2.2.1 (by decide), hx.1, hx.2.1⟩

/-! ## Properties of command deletion -/

/-- C12, on the in-memory command store: `DeleteCommand` on the sample service and the
stored identifier `cmd-1` returns no error, yet the command is still in the store, whichever
sequence of the writes that `CommandRepository` declares (`Save`) stands for the undeclared
`Delete`; a blank or unknown identifier is rejected with the store unchanged. -/
theorem DeleteCommand_in_memory_keeps_command :
    sampleService.commands.Get "cmd-1" = some sampleCommand ∧
    (∀ saves : List Command,
      (DeleteCommand (fun r _ => saves.foldl (fun r c => (r.Save c).2) r) sampleService
        "cmd-1").1 = none ∧
      ((DeleteCommand (fun r _ => saves.foldl (fun r c => (r.Save c).2) r) sampleService
        "cmd-1").2.commands.Get "cmd-1").isSome = true) ∧
    (∀ delete : InMemoryCommandRepo → String → InMemoryCommandRepo,
      (DeleteCommand delete sampleService " ").1 ≠ none ∧
      (DeleteCommand delete sampleService " ").2 = sampleService ∧
      (DeleteCommand delete sampleService "cmd-9").1 ≠ none ∧
      (DeleteCommand delete sampleService "cmd-9").2 = sampleService) := by
  refine ⟨by decide, ?_, ?_⟩
  · intro saves
    have hne : ¬ TrimSpace "cmd-1" = "" := by decide
    have hget : sampleService.commands.Get "cmd-1" = some sampleCommand := by decide
    unfold DeleteCommand
    simp only [hne, if_false, hget]
    exact ⟨trivial, saves_keep_command saves _ _ (by rw [hget]; rfl)⟩
  · intro delete
    have h1 := DeleteCommand_rejects delete sampleService " " (Or.inl (by decide))
    have h2 := DeleteCommand_rejects delete sampleService "cmd-9" (Or.inr (by decide))
    exact ⟨h1.1, h1.2, h2.1, h2.2⟩

end Bastion
